import Mathlib

/-!
Verification development for the AWS ElastiCache test-lifecycle orchestrator
(three Lambda sources: `schedule_shutdown.py`, `shutdown.py`, `verify_shutdown.py`).

The Python sources are shallowly embedded as executable Lean definitions:
pure helpers become Lean functions, external AWS calls become outcome-valued
fields of an environment record (`Except String α`), and the side effects the
handlers perform are recorded as explicit action traces.  Text is modelled as
`List Char` (`Bytes`), with byte lengths computed through `Char.utf8Size`,
matching Python's `len(...)` on UTF-8 encoded bytearrays.
-/

namespace Orchestrator

/-- Character list standing for a Python `str` / utf-8 `bytearray` content. -/
abbrev Bytes := List Char

/-- UTF-8 byte length of a character list (models `len` of the encoded bytes). -/
def utf8Len (b : Bytes) : Nat := b.foldr (fun c n => c.utf8Size + n) 0

/-- Whitespace set recognised by Python's `str.split()` (ASCII portion). -/
def pyIsSpace (c : Char) : Bool :=
  c == ' ' || c == '\t' || c == '\n' || c == '\r' || c == '\x0b' || c == '\x0c'

/-- Helper for `splitWs`: `cur` is the reversed current word. -/
def splitWsGo : Bytes → Bytes → List Bytes
  | [], cur => if cur.isEmpty then [] else [cur.reverse]
  | c :: cs, cur =>
    if pyIsSpace c then
      if cur.isEmpty then splitWsGo cs [] else cur.reverse :: splitWsGo cs []
    else splitWsGo cs (c :: cur)

/-- Model of Python `str.split()` with no argument: split on runs of
whitespace, discarding empty words. -/
def splitWs (s : Bytes) : List Bytes := splitWsGo s []

/-- Decimal digit test, as used by the model of Python `int(str)`. -/
def isDigitCh (c : Char) : Bool := '0' ≤ c && c ≤ '9'

/-- Value of a digit character. -/
def digitVal (c : Char) : Nat := c.toNat - '0'.toNat

/-- Numeric value of a digit string (left fold, most significant first). -/
def digitsVal (ds : Bytes) : Nat := ds.foldl (fun a c => 10 * a + digitVal c) 0

/-- Consume the remaining digit characters of an integer literal, `acc` being
the value read so far; a single underscore is allowed strictly between two
digits, as in Python 3's `int()` (`int("1_2") = 12`, while `"_1"`, `"1_"` and
`"1__2"` all raise `ValueError`). -/
def digitsUSGo : Bytes → Nat → Option Nat
  | [], acc => some acc
  | c :: rest, acc =>
    if isDigitCh c then digitsUSGo rest (10 * acc + digitVal c)
    else if c = '_' then
      match rest with
      | [] => none
      | d :: rest' =>
        if isDigitCh d then digitsUSGo rest' (10 * acc + digitVal d) else none
    else none

/-- Parse a digit string (underscores allowed between digits) to a `Nat`;
`none` otherwise. -/
def digitsToNat? (ds : Bytes) : Option Nat :=
  match ds with
  | [] => none
  | c :: rest => if isDigitCh c then digitsUSGo rest (digitVal c) else none

/-- Model of Python `int(str)` on its ASCII-decimal fragment: optional
surrounding whitespace, an optional single sign, then decimal digits with
underscores allowed between digits. Returns `none` where CPython raises
`ValueError`. Unicode category-Nd digits and Unicode whitespace, which
CPython also accepts, are outside this model's alphabet. -/
def pyInt? (s : Bytes) : Option Int :=
  let t := ((s.dropWhile pyIsSpace).reverse.dropWhile pyIsSpace).reverse
  match t with
  | [] => none
  | c :: ds =>
    if c = '+' then (digitsToNat? ds).map Int.ofNat
    else if c = '-' then (digitsToNat? ds).map (fun n => -(n : Int))
    else (digitsToNat? (c :: ds)).map Int.ofNat

/-- Is `y` a Gregorian leap year (as in Python's `calendar`/`datetime`). -/
def isLeapYear (y : Int) : Bool := (y % 4 == 0 && y % 100 != 0) || y % 400 == 0

/-- Number of days in month `m` of year `y` (only meaningful for `1 ≤ m ≤ 12`). -/
def daysInMonth (y m : Int) : Int :=
  if m == 2 then (if isLeapYear y then 29 else 28)
  else if m == 4 || m == 6 || m == 9 || m == 11 then 30
  else 31

/-- A timezone-aware Python `datetime` at the minute resolution of the
restricted cron dialect (the dialect carries no seconds field). -/
structure PyDateTime where
  year : Nat
  month : Nat
  day : Nat
  hour : Nat
  minute : Nat
deriving DecidableEq, Repr

/-- The argument ranges accepted by the `datetime(...)` constructor
(`ValueError` outside them): `MINYEAR = 1`, `MAXYEAR = 9999`. -/
def validDateArgs (y mo d h mi : Int) : Bool :=
  1 ≤ y && y ≤ 9999 && 1 ≤ mo && mo ≤ 12 && 1 ≤ d && d ≤ daysInMonth y mo &&
  0 ≤ h && h ≤ 23 && 0 ≤ mi && mi ≤ 59

/-- Validity of a `PyDateTime` value (its components are constructor-legal). -/
def validDT (t : PyDateTime) : Bool :=
  validDateArgs t.year t.month t.day t.hour t.minute

/-- Python `datetime(year, month, day, hour, minute, tzinfo=utc)` restricted
to its non-raising outcomes: `none` models the `ValueError` that
`_parse_cron_expression` catches. CPython additionally raises an *uncaught*
`OverflowError` when an argument falls outside the C `int` range; that path
is modelled by `mkDateTimeExc` below, and this `Option` view is used only
where the raise is unreachable. -/
def mkDateTime? (y mo d h mi : Int) : Option PyDateTime :=
  if validDateArgs y mo d h mi then
    some ⟨y.toNat, mo.toNat, d.toNat, h.toNat, mi.toNat⟩
  else none

/-- CPython converts each `datetime(...)` argument to a C `int` (32-bit on
CPython's supported platforms) while parsing the call, before any calendar
validation; a value outside this range raises `OverflowError`, which is not a
`ValueError` and so escapes `_parse_cron_expression`'s handler. -/
def inCInt (n : Int) : Bool := -2147483648 ≤ n && n ≤ 2147483647

/-- Python `datetime(...)` under the caller's `except ValueError`:
`.error` is the uncaught `OverflowError` (argument outside C `int`),
`.ok none` the caught `ValueError`, `.ok (some t)` a constructed datetime. -/
def mkDateTimeExc (y mo d h mi : Int) : Except String (Option PyDateTime) :=
  if inCInt y && inCInt mo && inCInt d && inCInt h && inCInt mi then
    if validDateArgs y mo d h mi then
      Except.ok (some ⟨y.toNat, mo.toNat, d.toNat, h.toNat, mi.toNat⟩)
    else Except.ok none
  else Except.error "OverflowError"

/-- `_parse_cron_expression` from `schedule_shutdown.py`, restricted to its
non-raising outcomes: accepts only `cron(minute hour day month ? year)` with
six fields, day-of-week exactly `?`, integer fields in constructor range;
every other non-raising input yields `none`. The uncaught `OverflowError`
path (a numeric field beyond C `int`) is modelled by `parseCronExpressionExc`
below, which differs from this function only in the final
datetime-construction step (`mkDateTimeExc` in place of `mkDateTime?`). -/
def parseCronExpression (expr : String) : Option PyDateTime :=
  let cs := expr.data
  if cs.take 5 = "cron(".data ∧ cs ≠ [] ∧ cs.getLast? = some ')' then
    let inner := (cs.drop 5).dropLast
    match splitWs inner with
    | [minute, hour, day, month, dayOfWeek, year] =>
      if dayOfWeek = ['?'] then
        match pyInt? year, pyInt? month, pyInt? day, pyInt? hour, pyInt? minute with
        | some y, some mo, some d, some h, some mi => mkDateTime? y mo d h mi
        | _, _, _, _, _ => none
      else none
    | _ => none
  else none

/-- `_parse_cron_expression` with its exception behaviour made explicit:
`.error` models the uncaught `OverflowError` raised by `datetime(...)` when a
successfully `int()`-parsed field lies outside the C `int` range (the source
catches only `ValueError`); `.ok none` is the returned `None`, `.ok (some t)`
a parsed time. All `int()` calls run inside the `try`, so a field that fails
integer parsing yields `None` before `datetime` is ever called. -/
def parseCronExpressionExc (expr : String) : Except String (Option PyDateTime) :=
  let cs := expr.data
  if cs.take 5 = "cron(".data ∧ cs ≠ [] ∧ cs.getLast? = some ')' then
    let inner := (cs.drop 5).dropLast
    match splitWs inner with
    | [minute, hour, day, month, dayOfWeek, year] =>
      if dayOfWeek = ['?'] then
        match pyInt? year, pyInt? month, pyInt? day, pyInt? hour, pyInt? minute with
        | some y, some mo, some d, some h, some mi => mkDateTimeExc y mo d h mi
        | _, _, _, _, _ => Except.ok none
      else Except.ok none
    | _ => Except.ok none
  else Except.ok none

/-- Fuel-driven most-significant-first decimal digits of `n` (`fuel ≥ n`
suffices; empty on `n = 0`). -/
def natDigitsAux : Nat → Nat → Bytes
  | 0, _ => []
  | _ + 1, 0 => []
  | fuel + 1, n => natDigitsAux fuel (n / 10) ++ [Char.ofNat ('0'.toNat + n % 10)]

/-- Model of Python `str(n)` / f-string formatting for a nonnegative integer. -/
def pyStrNat (n : Nat) : Bytes :=
  if n = 0 then ['0'] else natDigitsAux n n

/-- `_cron_at` from `schedule_shutdown.py`:
`f"cron({dt.minute} {dt.hour} {dt.day} {dt.month} ? {dt.year})"`. -/
def cronAt (dt : PyDateTime) : String :=
  ⟨"cron(".data ++ pyStrNat dt.minute ++ [' '] ++ pyStrNat dt.hour ++ [' '] ++
    pyStrNat dt.day ++ [' '] ++ pyStrNat dt.month ++ " ? ".data ++
    pyStrNat dt.year ++ [')']⟩

/-- Days since 1970-01-01 of a civil date (standard civil-from-days inverse
pair; used to model Python `timedelta` arithmetic on datetimes). -/
def daysFromCivil (y0 m d : Int) : Int :=
  let y := y0 - (if m ≤ 2 then 1 else 0)
  let era := (if 0 ≤ y then y else y - 399) / 400
  let yoe := y - era * 400
  let doy := (153 * (m + (if 2 < m then -3 else 9)) + 2) / 5 + d - 1
  let doe := yoe * 365 + yoe / 4 - yoe / 100 + doy
  era * 146097 + doe - 719468

/-- Civil date (year, month, day) of a days-since-1970 count. -/
def civilFromDays (z0 : Int) : Int × Int × Int :=
  let z := z0 + 719468
  let era := (if 0 ≤ z then z else z - 146096) / 146097
  let doe := z - era * 146097
  let yoe := (doe - doe / 1460 + doe / 36524 - doe / 146096) / 365
  let y := yoe + era * 400
  let doy := doe - (365 * yoe + yoe / 4 - yoe / 100)
  let mp := (5 * doy + 2) / 153
  let d := doy - (153 * mp + 2) / 5 + 1
  let m := mp + (if mp < 10 then 3 else -9)
  (y + (if m ≤ 2 then 1 else 0), m, d)

/-- Minutes since 1970-01-01T00:00 of a `PyDateTime`. -/
def toAbsMinutes (t : PyDateTime) : Int :=
  daysFromCivil t.year t.month t.day * 1440 + t.hour * 60 + t.minute

/-- Model of Python `dt + timedelta(minutes=k)` on minute-resolution datetimes. -/
def addMinutes (t : PyDateTime) (k : Nat) : PyDateTime :=
  let total := toAbsMinutes t + k
  let days := total.fdiv 1440
  let rem := (total.fmod 1440).toNat
  let c := civilFromDays days
  ⟨c.1.toNat, c.2.1.toNat, c.2.2.toNat, rem / 60, rem % 60⟩

/-- Python `<` on two (equal-timezone) datetimes: lexicographic on the
components. -/
def dtLt (a b : PyDateTime) : Bool :=
  a.year < b.year || (a.year == b.year && (a.month < b.month ||
    (a.month == b.month && (a.day < b.day || (a.day == b.day &&
      (a.hour < b.hour || (a.hour == b.hour && a.minute < b.minute)))))))

/-- Outcome of the scheduling decision in `schedule_shutdown.handler`. -/
inductive ScheduleDecision where
  | alreadyScheduled
  | scheduleAt (shutdownTime : PyDateTime)
deriving DecidableEq, Repr

/-- The rule-scheduling core of `schedule_shutdown.handler` (lines 108-126):
an expression equal to the placeholder is blanked, the result is parsed, and
the rule is left untouched only when the parsed time is more than one minute
(the grace window) after `now`; otherwise a new shutdown time
`now + timedelta(minutes=durationMinutes)` is scheduled. -/
def decideSchedule (scheduleExpression placeholder : String) (now : PyDateTime)
    (durationMinutes : Nat) : ScheduleDecision :=
  let expr := if scheduleExpression = placeholder then "" else scheduleExpression
  match parseCronExpression expr with
  | some scheduledAt =>
    if dtLt (addMinutes now 1) scheduledAt then ScheduleDecision.alreadyScheduled
    else ScheduleDecision.scheduleAt (addMinutes now durationMinutes)
  | none => ScheduleDecision.scheduleAt (addMinutes now durationMinutes)

/-! ### verify_shutdown.py -/

/-- One element of `describe_services(...)["services"]`. -/
structure EcsService where
  runningCount : Int
  desiredCount : Int
  status : String
deriving DecidableEq, Repr

/-- Outcome of the ECS `describe_services` call (the `try` target). -/
inductive EcsDescribeOutcome where
  | ok (services : List EcsService)
  | error (msg : String)
deriving DecidableEq, Repr

/-- `_ecs_running` from `verify_shutdown.py`: an empty service list is
"not found" (not running); a raised describe error is classified running. -/
def ecsRunning : EcsDescribeOutcome → Bool × String
  | .ok [] => (false, "service_not_found")
  | .ok (svc :: _) =>
    (decide (0 < svc.runningCount),
      "running=" ++ toString svc.runningCount ++ " desired=" ++
        toString svc.desiredCount ++ " status=" ++ svc.status)
  | .error msg => (true, "describe_failed: " ++ msg)

/-- One element of `describe_replication_groups(...)["ReplicationGroups"]`;
`status` is `group.get("Status", "unknown")`. -/
structure ReplicationGroup where
  status : Option String
deriving DecidableEq, Repr

/-- Outcome of the ElastiCache `describe_replication_groups` call:
a normal response, the `ReplicationGroupNotFoundFault`, or any other raise. -/
inductive RGDescribeOutcome where
  | ok (groups : List ReplicationGroup)
  | notFoundFault
  | error (msg : String)
deriving DecidableEq, Repr

/-- `_elasticache_running` from `verify_shutdown.py`: only the not-found fault
and an empty group list classify as not running; any status string and any
other describe failure classify as running. -/
def elasticacheRunning : RGDescribeOutcome → Bool × String
  | .ok [] => (false, "not_found")
  | .ok (g :: _) => (true, "status=" ++ g.status.getD "unknown")
  | .notFoundFault => (false, "not_found")
  | .error msg => (true, "describe_failed: " ++ msg)

/-- Result record of `verify_shutdown.handler`. -/
structure VerifyResult where
  ecsIsRunning : Bool
  ecsDetail : String
  elasticacheIsRunning : Bool
  elasticacheDetail : String
deriving DecidableEq, Repr

/-- The classification core of `verify_shutdown.handler`. -/
def verifyHandler (ecsOutcome : EcsDescribeOutcome) (rgOutcome : RGDescribeOutcome) :
    VerifyResult :=
  let e := ecsRunning ecsOutcome
  let c := elasticacheRunning rgOutcome
  ⟨e.1, e.2, c.1, c.2⟩

/-! ### shutdown.py — metric export -/

/-- A CloudWatch dimension: `(Name, Value)`. -/
abbrev Dim := String × String

/-- Python string `<`: lexicographic by code point. -/
def strLt : Bytes → Bytes → Bool
  | [], [] => false
  | [], _ :: _ => true
  | _ :: _, [] => false
  | c :: cs, d :: ds =>
    if c.toNat < d.toNat then true
    else if d.toNat < c.toNat then false
    else strLt cs ds

/-- Python tuple comparison on `(name, value)` pairs, as a Bool relation:
names compared first, values breaking ties. -/
def dimLe (a b : Dim) : Bool :=
  strLt a.1.data b.1.data || (a.1 == b.1 && !strLt b.2.data a.2.data)

/-- Non-decreasing order on datapoint-carrying timestamps. -/
def insertLe {α : Type} (le : α → α → Bool) (a : α) : List α → List α
  | [] => [a]
  | b :: l => if le a b then a :: b :: l else b :: insertLe le a l

/-- Stable insertion sort; models Python's stable `sorted(..., key=...)`. -/
def sortLe {α : Type} (le : α → α → Bool) : List α → List α
  | [] => []
  | a :: l => insertLe le a (sortLe le l)

/-- `sorted((d['Name'], d['Value']) for d in dimensions)`. -/
def sortDims (dims : List Dim) : List Dim := sortLe dimLe dims

/-- `_dimensions_to_str` from `shutdown.py`: sorted `name=value` pairs joined
by `;`. -/
def dimensionsToStr (dims : List Dim) : String :=
  String.intercalate ";" ((sortDims dims).map fun d => d.1 ++ "=" ++ d.2)

/-- One metric returned by the metric-listing API. -/
structure CwMetric where
  metricName : String
  dimensions : List Dim
deriving DecidableEq, Repr

/-- One source dict of `export_metric_sources_to_s3`: a namespace, a dimension
filter, and an optional metric-name allow-list (`[]` = absent). -/
structure MetricSource where
  nsp : String
  dimensions : List Dim
  metricNames : List String
deriving DecidableEq, Repr

/-- One CloudWatch datapoint: the four statistics are each optionally present. -/
structure Datapoint where
  timestamp : Nat
  unit : Option String
  average : Option Int
  sum : Option Int
  maximum : Option Int
  minimum : Option Int
deriving DecidableEq, Repr

/-- `STATISTICS = ['Average', 'Sum', 'Maximum', 'Minimum']`. -/
def STATISTICS : List String := ["Average", "Sum", "Maximum", "Minimum"]

/-- `stat in datapoint` / `datapoint[stat]` for the four statistics. -/
def statValue (dp : Datapoint) : String → Option Int
  | "Average" => dp.average
  | "Sum" => dp.sum
  | "Maximum" => dp.maximum
  | "Minimum" => dp.minimum
  | _ => none

/-- Deduplication key `(namespace, metric_name, tuple(sorted(dims)))`. -/
abbrev SeriesKey := String × String × List Dim

/-- One CSV data row (`Timestamp,Namespace,MetricName,Stat,Value,Unit,Dimensions`). -/
structure Row where
  timestamp : Nat
  nsp : String
  metricName : String
  stat : String
  value : Int
  unit : String
  dimensionsStr : String
deriving DecidableEq, Repr

/-- External calls used by the metric export, as outcome-valued fields. -/
structure MetricsEnv where
  listMetricsBackend : String → List Dim → Except String (List CwMetric)
  getMetricStatistics : String → String → List Dim → Except String (List Datapoint)
  putObject : Except String Unit

/-- `_list_metrics` from `shutdown.py` with its pagination aggregated into one
backend call: drops metrics with a falsy name and applies the optional
metric-name allow-set. -/
def listMetricsCall (env : MetricsEnv) (nsp : String) (filterDims : List Dim)
    (metricNames : List String) : Except String (List CwMetric) :=
  (env.listMetricsBackend nsp filterDims).map fun ms =>
    ms.filter fun m =>
      !(m.metricName == "") && (metricNames.isEmpty || metricNames.contains m.metricName)

/-- Python `dict` assignment `d[k] = v`: replace in place, else append. -/
def insertOrReplace (k : SeriesKey) (v : List Dim) :
    List (SeriesKey × List Dim) → List (SeriesKey × List Dim)
  | [] => [(k, v)]
  | (k', v') :: rest =>
    if k' = k then (k, v) :: rest else (k', v') :: insertOrReplace k v rest

/-- The `metric_map` built by `export_metric_sources_to_s3`: per source, a
listing failure skips that source (`continue`); discovered metrics are keyed
by `SeriesKey`, the stored value being the raw (unsorted) dimension list. -/
def metricMap (env : MetricsEnv) (sources : List MetricSource) :
    List (SeriesKey × List Dim) :=
  sources.foldl
    (fun acc src =>
      match listMetricsCall env src.nsp src.dimensions src.metricNames with
      | .error _ => acc
      | .ok metrics =>
        metrics.foldl
          (fun acc m =>
            insertOrReplace (src.nsp, m.metricName, sortDims m.dimensions)
              m.dimensions acc)
          acc)
    []

/-- Rows of one datapoint: one row per statistic actually present, in
`STATISTICS` order. -/
def rowsOfDatapoint (nsp metricName dimsStr : String) (dp : Datapoint) : List Row :=
  STATISTICS.filterMap fun stat =>
    (statValue dp stat).map fun v =>
      ⟨dp.timestamp, nsp, metricName, stat, v, dp.unit.getD "None", dimsStr⟩

/-- Sort datapoints by `d['Timestamp']` (stable, like Python's `sorted`). -/
def sortDatapoints (dps : List Datapoint) : List Datapoint :=
  sortLe (fun a b => a.timestamp ≤ b.timestamp) dps

/-- Rows contributed by one `metric_map` entry: a failed statistics fetch is
logged and skipped (`continue`), contributing no rows. -/
def rowsForSeries (env : MetricsEnv) (entry : SeriesKey × List Dim) : List Row :=
  let nsp := entry.1.1
  let metricName := entry.1.2.1
  let dimsStr := dimensionsToStr entry.2
  match env.getMetricStatistics nsp metricName entry.2 with
  | .error _ => []
  | .ok dps => (sortDatapoints dps).flatMap (rowsOfDatapoint nsp metricName dimsStr)

/-- Output of `export_metric_sources_to_s3`: the CSV data rows (header aside)
and the returned URI or the propagated `put_object` failure. -/
structure MetricsExportOut where
  rows : List Row
  result : Except String String
deriving Repr

/-- `export_metric_sources_to_s3` from `shutdown.py`. -/
def exportMetricSourcesToS3 (env : MetricsEnv) (sources : List MetricSource)
    (bucket key : String) : MetricsExportOut :=
  let rows := (metricMap env sources).flatMap (rowsForSeries env)
  { rows := rows
    result :=
      match env.putObject with
      | .ok _ => .ok ("s3://" ++ bucket ++ "/" ++ key)
      | .error e => .error e }

/-! ### shutdown.py — log export -/

/-- One CloudWatch Logs event as consumed by `export_logs_to_s3`; `ts` is the
already-rendered `datetime.fromtimestamp(...).isoformat()` text of its
timestamp. -/
structure LogEvent where
  ts : Bytes
  stream : Bytes
  message : Bytes
deriving DecidableEq, Repr

/-- `message.rstrip('\n')`. -/
def rstripNl (m : Bytes) : Bytes := (m.reverse.dropWhile (· == '\n')).reverse

/-- `f"[{ts}] [{stream}] {message}\n"`. -/
def logLine (e : LogEvent) : Bytes :=
  '[' :: (e.ts ++ "] [".data ++ e.stream ++ "] ".data ++ rstripNl e.message ++ ['\n'])

/-- One answer of `logs.filter_log_events`: a page of events with an optional
next token, or a raised backend error. -/
inductive LogPage where
  | ok (events : List LogEvent) (nextToken : Option String)
  | fail (msg : String)
deriving DecidableEq, Repr

/-- Object-storage calls used by the log export, as outcome-valued fields. -/
structure LogS3Env where
  createMultipartUpload : Except String String
  uploadPart : Nat → Bytes → Except String String
  completeMultipartUpload : List (String × Nat) → Except String Unit
  abortMultipartUpload : Except String Unit
  putObject : Bytes → Except String Unit

/-- The S3 calls issued by the log export, recorded in order. -/
inductive S3Action where
  | createMultipartUpload
  | uploadPart (partNumber : Nat) (data : Bytes)
  | completeMultipartUpload (parts : List (String × Nat))
  | abortMultipartUpload
  | putObject (body : Bytes)
deriving DecidableEq, Repr

/-- In-flight state of `export_logs_to_s3`: the byte buffer, the multipart
session (`upload_id`, `parts`, `part_number`) and the trace of S3 calls. -/
structure LogSt where
  buffer : Bytes
  uploadId : Option String
  parts : List (String × Nat)
  partNumber : Nat
  trace : List S3Action
deriving Repr

/-- A step that either yields a new state or a raised error message together
with the state at raise time. -/
abbrev LogStep := Except (String × LogSt) LogSt

/-- `_start_multipart`: create the upload session once. -/
def startMultipart (env : LogS3Env) (st : LogSt) : LogStep :=
  match st.uploadId with
  | some _ => .ok st
  | none =>
    let st := { st with trace := st.trace ++ [S3Action.createMultipartUpload] }
    match env.createMultipartUpload with
    | .ok uid => .ok { st with uploadId := some uid }
    | .error e => .error (e, st)

/-- `_upload_part(data)`: ensure the session, upload, record the part. -/
def uploadPartStep (env : LogS3Env) (data : Bytes) (st : LogSt) : LogStep :=
  match startMultipart env st with
  | .error r => .error r
  | .ok st =>
    let st := { st with trace := st.trace ++ [S3Action.uploadPart st.partNumber data] }
    match env.uploadPart st.partNumber data with
    | .ok etag =>
      .ok { st with parts := st.parts ++ [(etag, st.partNumber)],
                    partNumber := st.partNumber + 1 }
    | .error e => .error (e, st)

/-- `_flush(force)`: upload the buffer as one part when it is nonempty and
either at least the part size or forced; the buffer is cleared only on
success. -/
def flushStep (env : LogS3Env) (partSize : Nat) (force : Bool) (st : LogSt) : LogStep :=
  if st.buffer.isEmpty then .ok st
  else if utf8Len st.buffer < partSize && !force then .ok st
  else
    match uploadPartStep env st.buffer st with
    | .error r => .error r
    | .ok st' => .ok { st' with buffer := [] }

/-- Append one formatted event line and flush when the buffer reaches the part
size. -/
def processEvent (env : LogS3Env) (partSize : Nat) (e : LogEvent) (st : LogSt) : LogStep :=
  let st := { st with buffer := st.buffer ++ logLine e }
  if partSize ≤ utf8Len st.buffer then flushStep env partSize false st else .ok st

/-- The `for event in response.get('events', [])` loop body. -/
def processEvents (env : LogS3Env) (partSize : Nat) :
    List LogEvent → LogSt → LogStep
  | [], st => .ok st
  | e :: es, st =>
    match processEvent env partSize e st with
    | .error r => .error r
    | .ok st' => processEvents env partSize es st'

/-- The diagnostic line appended when the pagination `try` catches an error. -/
def errLine (lg msg : String) : Bytes :=
  ("Error fetching logs from " ++ lg ++ ": " ++ msg ++ "\n").data

/-- The `while True` pagination loop of `export_logs_to_s3`: one list element
per backend answer; a raised backend or upload error is caught, recorded as an
inline diagnostic line, and ends the loop; an absent, empty or non-advancing
token ends the loop normally (an exhausted page list stands for a backend that
returns no further data). -/
def runPages (env : LogS3Env) (partSize : Nat) (lg : String) :
    List LogPage → Option String → LogSt → LogSt
  | [], _, st => st
  | page :: rest, prevTok, st =>
    match page with
    | .fail msg => { st with buffer := st.buffer ++ errLine lg msg }
    | .ok events tok =>
      match processEvents env partSize events st with
      | .error (e, st') => { st' with buffer := st'.buffer ++ errLine lg e }
      | .ok st' =>
        match tok with
        | none => st'
        | some t =>
          if t = "" ∨ some t = prevTok then st'
          else runPages env partSize lg rest (some t) st'

/-- The initial state: header line `LogGroup: <name>\n` already buffered. -/
def initLogSt (lg : String) : LogSt :=
  { buffer := ("LogGroup: " ++ lg ++ "\n").data, uploadId := none, parts := [],
    partNumber := 1, trace := [] }

/-- `export_logs_to_s3` from `shutdown.py`, parameterized by the part-size
threshold (the source fixes it to `LOG_EXPORT_PART_SIZE`): an unset log group
is a no-op; otherwise the pages are streamed, and the artifact is finished
either through the multipart protocol (final forced flush, then complete; on
failure abort, then re-raise) or as a single whole object. -/
def exportLogsToS3PS (partSize : Nat) (env : LogS3Env) (logGroup : Option String)
    (bucket key : String) (pages : List LogPage) :
    Except String (Option String) × LogSt :=
  match logGroup with
  | none => (.ok none, { buffer := [], uploadId := none, parts := [], partNumber := 1, trace := [] })
  | some lg =>
    let st1 := runPages env partSize lg pages none (initLogSt lg)
    match st1.uploadId with
    | some _ =>
      let finish : LogStep :=
        match flushStep env partSize true st1 with
        | .error r => .error r
        | .ok st2 =>
          let st2 := { st2 with trace := st2.trace ++ [S3Action.completeMultipartUpload st2.parts] }
          match env.completeMultipartUpload st2.parts with
          | .ok _ => .ok st2
          | .error e => .error (e, st2)
      match finish with
      | .ok st2 => (.ok (some ("s3://" ++ bucket ++ "/" ++ key)), st2)
      | .error (e, st2) =>
        let st3 := { st2 with trace := st2.trace ++ [S3Action.abortMultipartUpload] }
        match env.abortMultipartUpload with
        | .ok _ => (.error e, st3)
        | .error e2 => (.error e2, st3)
    | none =>
      let st2 := { st1 with trace := st1.trace ++ [S3Action.putObject st1.buffer] }
      match env.putObject st1.buffer with
      | .ok _ => (.ok (some ("s3://" ++ bucket ++ "/" ++ key)), st2)
      | .error e => (.error e, st2)

/-- `LOG_EXPORT_PART_SIZE = 6 * 1024 * 1024`. -/
def LOG_EXPORT_PART_SIZE : Nat := 6 * 1024 * 1024

/-- `export_logs_to_s3` with the source's fixed part size. -/
def exportLogsToS3 (env : LogS3Env) (logGroup : Option String) (bucket key : String)
    (pages : List LogPage) : Except String (Option String) × LogSt :=
  exportLogsToS3PS LOG_EXPORT_PART_SIZE env logGroup bucket key pages

/-! ### shutdown.py — handler (teardown sequencer) -/

/-- Outcomes of the external calls made by `shutdown.handler`; the export and
notification sub-steps (modelled in detail above) appear here through the
value or error they produce. -/
structure HandlerEnv where
  ecsUpdateService : Except String Unit
  elasticacheDelete : Except String Unit
  exportMetricsElasticache : Except String String
  exportMetricsEcs : Except String String
  exportLogsLoadgen : Except String (Option String)
  exportLogsContainerInsights : Except String (Option String)
  exportLogsElasticache : Except String (Option String)
  exportLogsScheduler : Except String (Option String)
  sendNotification : Except String (Option Bool)

/-- Value of `results['ecs_stopped']` / `results['elasticache_stopped']`:
the initial `False`, `True` on success, or `str(e)` on a caught failure. -/
inductive StopField where
  | notDone
  | stopped
  | errText (e : String)
deriving DecidableEq, Repr

/-- The per-action `try/except` of the two teardown steps: success records
`True`, a raised error is caught and recorded as its string. -/
def recordStop : Except String Unit → StopField
  | .ok _ => .stopped
  | .error e => .errText e

/-- The `results` dict returned by `shutdown.handler`. -/
structure ShutdownResults where
  metricsExport : Option String
  ecsMetricsExport : Option String
  logExports : List (String × Option String)
  ecsStopped : StopField
  elasticacheStopped : StopField
  notificationSent : Option Bool
deriving DecidableEq, Repr

/-- The external steps attempted by `shutdown.handler`, recorded in order. -/
inductive HAction where
  | ecsUpdateService
  | elasticacheDelete
  | exportElasticacheMetrics
  | exportEcsMetrics
  | exportLog (sourceName : String)
  | sendNotification
deriving DecidableEq, Repr

/-- The four `log_exports[...] = export_logs_to_s3(...)` assignments, in
source order, with the result dict keys used by the handler. -/
def logExportPlan (env : HandlerEnv) : List (String × Except String (Option String)) :=
  [("loadgen", env.exportLogsLoadgen),
   ("container_insights", env.exportLogsContainerInsights),
   ("elasticache", env.exportLogsElasticache),
   ("lambda_shutdown_scheduler", env.exportLogsScheduler)]

/-- Run the log exports in order; the first raised error propagates (the
handler's outer `try` re-raises), ending the sequence. -/
def runLogExports : List (String × Except String (Option String)) →
    Except String (List (String × Option String)) × List HAction
  | [] => (.ok [], [])
  | (name, out) :: rest =>
    match out with
    | .error e => (.error e, [HAction.exportLog name])
    | .ok v =>
      let r := runLogExports rest
      match r.1 with
      | .error e => (.error e, HAction.exportLog name :: r.2)
      | .ok vs => (.ok ((name, v) :: vs), HAction.exportLog name :: r.2)

/-- `shutdown.handler`: scale ECS to zero and delete the replication group,
each failure caught and recorded; then the two metric exports and the four log
exports, whose failures propagate; then the non-fatal notification. -/
def shutdownHandler (env : HandlerEnv) : Except String ShutdownResults × List HAction :=
  let ecsField := recordStop env.ecsUpdateService
  let cacheField := recordStop env.elasticacheDelete
  let tr0 := [HAction.ecsUpdateService, HAction.elasticacheDelete,
              HAction.exportElasticacheMetrics]
  match env.exportMetricsElasticache with
  | .error e => (.error e, tr0)
  | .ok mUri =>
    let tr1 := tr0 ++ [HAction.exportEcsMetrics]
    match env.exportMetricsEcs with
    | .error e => (.error e, tr1)
    | .ok eUri =>
      let lr := runLogExports (logExportPlan env)
      let tr2 := tr1 ++ lr.2
      match lr.1 with
      | .error e => (.error e, tr2)
      | .ok logResults =>
        let tr3 := tr2 ++ [HAction.sendNotification]
        let notif :=
          match env.sendNotification with
          | .ok v => v
          | .error _ => some false
        (.ok { metricsExport := some mUri, ecsMetricsExport := some eUri,
               logExports := logResults, ecsStopped := ecsField,
               elasticacheStopped := cacheField, notificationSent := notif }, tr3)

/-! ### Observations about log-export traces -/

/-- Concatenation of the bodies of all parts uploaded in a trace, in order. -/
def uploadedData : List S3Action → Bytes
  | [] => []
  | S3Action.uploadPart _ d :: rest => d ++ uploadedData rest
  | _ :: rest => uploadedData rest

/-- The text the pagination loop appends for a failure-free page list: the
formatted lines of every consumed event (consumption follows the token rules
of `runPages`). -/
def consumedText : List LogPage → Option String → Bytes
  | [], _ => []
  | LogPage.fail _ :: _, _ => []
  | LogPage.ok evs tok :: rest, prev =>
    evs.flatMap logLine ++
      (match tok with
       | none => []
       | some t => if t = "" ∨ some t = prev then [] else consumedText rest (some t))

/-- The part list is numbered `1, 2, …` and the next part number follows it. -/
def partsNumbered (st : LogSt) : Prop :=
  st.parts.map Prod.snd = List.range' 1 st.parts.length ∧
  st.partNumber = st.parts.length + 1

/-- Invariant of the pagination phase: parts are consecutively numbered, the
trace holds only session-opening and part-upload calls, the session exists
exactly when its opening call was traced, and before the session opens the
trace is empty. -/
def traceWf (st : LogSt) : Prop :=
  partsNumbered st ∧
  (∀ a ∈ st.trace,
    (∀ pl, a ≠ S3Action.completeMultipartUpload pl) ∧
    a ≠ S3Action.abortMultipartUpload ∧ (∀ b, a ≠ S3Action.putObject b)) ∧
  (st.uploadId.isSome ↔ S3Action.createMultipartUpload ∈ st.trace) ∧
  (st.uploadId = none → st.trace = [])

/-- After any completed event processing, either the buffer is still below
the part size or a multipart session has been opened. -/
def stOk (ps : Nat) (st : LogSt) : Prop :=
  utf8Len st.buffer < ps ∨ st.uploadId.isSome = true

/-! ### Concrete inputs used by witnesses -/

/-- S3 environment whose multipart completion fails (abort succeeds). -/
def c2EnvAbort : LogS3Env :=
  { createMultipartUpload := .ok "uid"
    uploadPart := fun _ _ => .ok "etag"
    completeMultipartUpload := fun _ => .error "cfail"
    abortMultipartUpload := .ok ()
    putObject := fun _ => .ok () }

/-- S3 environment where every call succeeds. -/
def c4EnvW : LogS3Env :=
  { createMultipartUpload := .ok "uid"
    uploadPart := fun _ _ => .ok "etag"
    completeMultipartUpload := fun _ => .ok ()
    abortMultipartUpload := .ok ()
    putObject := fun _ => .ok () }

/-- A single page with one short event. -/
def c2PageW : List LogPage :=
  [LogPage.ok [⟨"t".data, "s".data, "m".data⟩] none]

/-- Handler environment where the ECS scale-to-zero raises and all later
steps succeed. -/
def c1EnvW : HandlerEnv :=
  { ecsUpdateService := .error "boom"
    elasticacheDelete := .ok ()
    exportMetricsElasticache := .ok "s3://b/m.csv"
    exportMetricsEcs := .ok "s3://b/m-ecs.csv"
    exportLogsLoadgen := .ok (some "s3://b/l1.txt")
    exportLogsContainerInsights := .ok none
    exportLogsElasticache := .ok (some "s3://b/l3.txt")
    exportLogsScheduler := .ok (some "s3://b/l4.txt")
    sendNotification := .ok none }

/-- The results record `shutdown.handler` produces on `c1EnvW`. -/
def c1ResW : ShutdownResults :=
  { metricsExport := some "s3://b/m.csv"
    ecsMetricsExport := some "s3://b/m-ecs.csv"
    logExports := [("loadgen", some "s3://b/l1.txt"), ("container_insights", none),
                   ("elasticache", some "s3://b/l3.txt"),
                   ("lambda_shutdown_scheduler", some "s3://b/l4.txt")]
    ecsStopped := .errText "boom"
    elasticacheStopped := .stopped
    notificationSent := none }

/-- `l₁` occurs contiguously inside `l₂`. -/
def isSubsegment (l₁ l₂ : List Row) : Prop := ∃ s t, s ++ l₁ ++ t = l₂

/-- Metrics environment where the same series is discoverable through two
different dimension filters (with the dimension lists in different orders),
statistics are served for every series, and the upload succeeds. -/
def c5EnvW : MetricsEnv :=
  { listMetricsBackend := fun _ dims =>
      if dims = [("ReplicationGroupId", "rg")] then
        .ok [⟨"CPUUtilization", [("CacheClusterId", "c1"), ("ReplicationGroupId", "rg")]⟩]
      else
        .ok [⟨"CPUUtilization", [("ReplicationGroupId", "rg"), ("CacheClusterId", "c1")]⟩]
    getMetricStatistics := fun _ _ _ =>
      .ok [⟨2, some "Percent", some 5, none, some 9, none⟩,
           ⟨1, some "Percent", some 4, none, none, some 1⟩]
    putObject := .ok () }

/-- The replication-group-filtered source. -/
def c5Src1 : MetricSource := ⟨"AWS/ElastiCache", [("ReplicationGroupId", "rg")], []⟩

/-- The member-cluster-filtered source discovering the same series. -/
def c5Src2 : MetricSource := ⟨"AWS/ElastiCache", [("CacheClusterId", "c1")], []⟩

/-- Metrics environment whose listing call fails for one specific dimension
filter and succeeds elsewhere. -/
def c3EnvW : MetricsEnv :=
  { listMetricsBackend := fun _ dims =>
      if dims = [("bad", "x")] then .error "boom" else .ok [⟨"M", dims⟩]
    getMetricStatistics := fun _ _ _ => .ok []
    putObject := .ok () }

/-- A source whose listing succeeds. -/
def c3SrcGood : MetricSource := ⟨"NS", [("good", "y")], []⟩

/-- A source whose listing raises. -/
def c3SrcBad : MetricSource := ⟨"NS", [("bad", "x")], []⟩

/-- The single `metric_map` entry discovered from `c3SrcGood`. -/
def c3Entry : SeriesKey × List Dim :=
  (("NS", "M", sortDims [("good", "y")]), [("good", "y")])

/-- S3 environment whose whole-object upload succeeds (multipart never used
by the witnesses that rely on it). -/
def s3EnvPutOk : LogS3Env :=
  { createMultipartUpload := .error "unused"
    uploadPart := fun _ _ => .error "unused"
    completeMultipartUpload := fun _ => .error "unused"
    abortMultipartUpload := .ok ()
    putObject := fun _ => .ok () }

end Orchestrator

namespace Orchestrator

/-! ### Helper lemmas -/

theorem utf8Len_append (a b : Bytes) : utf8Len (a ++ b) = utf8Len a + utf8Len b := by
  induction a with
  | nil => simp [utf8Len]
  | cons c cs ih => simp [utf8Len, List.foldr_cons] at *; omega

/-- A pagination run whose every page is empty leaves the export state
untouched (no S3 call, buffer unchanged). -/
theorem runPages_empty_events (env : LogS3Env) (ps : Nat) (lg : String) :
    ∀ (pages : List LogPage) (prev : Option String) (st : LogSt),
      (∀ p ∈ pages, ∃ tok, p = LogPage.ok [] tok) →
      runPages env ps lg pages prev st = st := by
  intro pages
  induction pages with
  | nil => intro prev st _; rfl
  | cons page rest ih =>
    intro prev st h
    obtain ⟨tok, rfl⟩ := h page (List.mem_cons_self _ _)
    have hr : ∀ p ∈ rest, ∃ tok, p = LogPage.ok [] tok :=
      fun p hp => h p (List.mem_cons_of_mem _ hp)
    cases tok with
    | none => simp [runPages, processEvents]
    | some t =>
      by_cases hc : t = "" ∨ some t = prev
      · simp [runPages, processEvents, hc]
      · simp [runPages, processEvents, hc, ih (some t) st hr]

/-- Shape of the export when the pagination loop ends without a multipart
session: the whole buffer goes through one `put_object`. -/
theorem exportLogsPS_no_upload (ps : Nat) (env : LogS3Env) (lg bucket key : String)
    (pages : List LogPage) (st1 : LogSt)
    (hrun : runPages env ps lg pages none (initLogSt lg) = st1)
    (hup : st1.uploadId = none) :
    exportLogsToS3PS ps env (some lg) bucket key pages =
      (match env.putObject st1.buffer with
       | .ok _ => (Except.ok (some ("s3://" ++ bucket ++ "/" ++ key)),
           { st1 with trace := st1.trace ++ [S3Action.putObject st1.buffer] })
       | .error e => (Except.error e,
           { st1 with trace := st1.trace ++ [S3Action.putObject st1.buffer] })) := by
  simp only [exportLogsToS3PS, hrun, hup]

/-- Shape of the export when the pagination loop ends with a multipart
session open: final forced flush, then complete; on failure abort, then
re-raise. -/
theorem exportLogsPS_upload_branch (ps : Nat) (env : LogS3Env) (lg bucket key : String)
    (pages : List LogPage) (st1 : LogSt)
    (hrun : runPages env ps lg pages none (initLogSt lg) = st1)
    (u : String) (hu1 : st1.uploadId = some u) :
    exportLogsToS3PS ps env (some lg) bucket key pages =
      (let fin : LogStep :=
        match flushStep env ps true st1 with
        | .error r => Except.error r
        | .ok st2 =>
          match env.completeMultipartUpload st2.parts with
          | .ok _ => Except.ok
              { st2 with trace := st2.trace ++ [S3Action.completeMultipartUpload st2.parts] }
          | .error e => Except.error
              (e, { st2 with trace := st2.trace ++ [S3Action.completeMultipartUpload st2.parts] })
      match fin with
      | .ok st2 => (Except.ok (some ("s3://" ++ bucket ++ "/" ++ key)), st2)
      | .error (e, st2) =>
        match env.abortMultipartUpload with
        | .ok _ => (Except.error e,
             { st2 with trace := st2.trace ++ [S3Action.abortMultipartUpload] })
        | .error e2 => (Except.error e2,
             { st2 with trace := st2.trace ++ [S3Action.abortMultipartUpload] })) := by
  simp only [exportLogsToS3PS, hrun, hu1]

/-! ### Claim theorems -/

/-- C9: the verifier classifies the cache as not running exactly on the
resource-not-found outcomes (the not-found fault or an empty group list);
every reported status and every other describe failure is running, and an ECS
describe failure likewise yields `computeRunning = true`. -/
theorem verifier_notfound_classification :
    (∀ o : RGDescribeOutcome,
        (elasticacheRunning o).1 = false ↔
          o = RGDescribeOutcome.notFoundFault ∨ o = RGDescribeOutcome.ok []) ∧
    (∀ msg : String, (ecsRunning (EcsDescribeOutcome.error msg)).1 = true) ∧
    (∀ (eo : EcsDescribeOutcome) (ro : RGDescribeOutcome),
        (verifyHandler eo ro).elasticacheIsRunning = (elasticacheRunning ro).1 ∧
        (verifyHandler eo ro).ecsIsRunning = (ecsRunning eo).1) := by
  refine ⟨?_, fun _ => rfl, fun _ _ => ⟨rfl, rfl⟩⟩
  intro o
  cases o with
  | ok groups => cases groups <;> simp [elasticacheRunning]
  | notFoundFault => simp [elasticacheRunning]
  | error msg => simp [elasticacheRunning]

/-- C1: a failing compute scale-to-zero is captured as an error string in
`results['ecs_stopped']`, the cache teardown is still attempted with its own
result recorded independently, and the metric and log export steps still run. -/
theorem shutdown_teardown_failure_isolation
    (env : HandlerEnv) (e : String)
    (h : env.ecsUpdateService = Except.error e) :
    HAction.elasticacheDelete ∈ (shutdownHandler env).2 ∧
    HAction.exportElasticacheMetrics ∈ (shutdownHandler env).2 ∧
    (∀ res, (shutdownHandler env).1 = Except.ok res →
        res.ecsStopped = StopField.errText e ∧
        res.elasticacheStopped = recordStop env.elasticacheDelete) ∧
    (∀ mu eu l1 l2 l3 l4,
        env.exportMetricsElasticache = Except.ok mu →
        env.exportMetricsEcs = Except.ok eu →
        env.exportLogsLoadgen = Except.ok l1 →
        env.exportLogsContainerInsights = Except.ok l2 →
        env.exportLogsElasticache = Except.ok l3 →
        env.exportLogsScheduler = Except.ok l4 →
        HAction.exportEcsMetrics ∈ (shutdownHandler env).2 ∧
        HAction.exportLog "loadgen" ∈ (shutdownHandler env).2 ∧
        HAction.exportLog "container_insights" ∈ (shutdownHandler env).2 ∧
        HAction.exportLog "elasticache" ∈ (shutdownHandler env).2 ∧
        HAction.exportLog "lambda_shutdown_scheduler" ∈ (shutdownHandler env).2) := by
  refine ⟨?_, ?_, ?_, ?_⟩
  · cases hm : env.exportMetricsElasticache <;>
      cases he : env.exportMetricsEcs <;>
      simp [shutdownHandler, hm, he, runLogExports, logExportPlan] <;>
      cases h1 : env.exportLogsLoadgen <;>
      cases h2 : env.exportLogsContainerInsights <;>
      cases h3 : env.exportLogsElasticache <;>
      cases h4 : env.exportLogsScheduler <;>
      simp [runLogExports, h1, h2, h3, h4]
  · cases hm : env.exportMetricsElasticache <;>
      cases he : env.exportMetricsEcs <;>
      simp [shutdownHandler, hm, he, runLogExports, logExportPlan] <;>
      cases h1 : env.exportLogsLoadgen <;>
      cases h2 : env.exportLogsContainerInsights <;>
      cases h3 : env.exportLogsElasticache <;>
      cases h4 : env.exportLogsScheduler <;>
      simp [runLogExports, h1, h2, h3, h4]
  · intro res hres
    cases hm : env.exportMetricsElasticache <;>
      cases he : env.exportMetricsEcs <;>
      cases h1 : env.exportLogsLoadgen <;>
      cases h2 : env.exportLogsContainerInsights <;>
      cases h3 : env.exportLogsElasticache <;>
      cases h4 : env.exportLogsScheduler <;>
      simp [shutdownHandler, hm, he, h1, h2, h3, h4, runLogExports,
        logExportPlan] at hres <;>
      (subst hres; simp [h, recordStop])
  · intro mu eu l1 l2 l3 l4 hm he h1 h2 h3 h4
    simp [shutdownHandler, hm, he, runLogExports, logExportPlan, h1, h2, h3, h4]

/-- C1 witness: the isolation theorem instantiated on a concrete environment
whose compute stop fails with "boom" and whose exports all succeed. -/
theorem shutdown_teardown_failure_isolation_witness :
    HAction.elasticacheDelete ∈ (shutdownHandler c1EnvW).2 ∧
    HAction.exportElasticacheMetrics ∈ (shutdownHandler c1EnvW).2 ∧
    c1ResW.ecsStopped = StopField.errText "boom" ∧
    c1ResW.elasticacheStopped = recordStop c1EnvW.elasticacheDelete ∧
    HAction.exportLog "lambda_shutdown_scheduler" ∈ (shutdownHandler c1EnvW).2 := by
  have h := shutdown_teardown_failure_isolation c1EnvW "boom" rfl
  have hres := h.2.2.1 c1ResW (by rfl)
  have hlogs := h.2.2.2 "s3://b/m.csv" "s3://b/m-ecs.csv" (some "s3://b/l1.txt") none
    (some "s3://b/l3.txt") (some "s3://b/l4.txt") rfl rfl rfl rfl rfl rfl
  exact ⟨h.1, h.2.1, hres.1, hres.2, hlogs.2.2.2.2⟩

/-- C6 counterexample: with the default placeholder `cron(0 0 1 1 ? 2099)`,
the existing expression equal to the placeholder parses to a time far beyond
the grace window, yet the handler reschedules instead of reporting
already-scheduled — the claim's two clauses cannot both hold there. -/
theorem decideSchedule_claim_counterexample :
    parseCronExpression "cron(0 0 1 1 ? 2099)" = some ⟨2099, 1, 1, 0, 0⟩ ∧
    dtLt (addMinutes ⟨2026, 10, 12, 10, 0⟩ 1) ⟨2099, 1, 1, 0, 0⟩ = true ∧
    decideSchedule "cron(0 0 1 1 ? 2099)" "cron(0 0 1 1 ? 2099)"
        ⟨2026, 10, 12, 10, 0⟩ 60 =
      ScheduleDecision.scheduleAt (addMinutes ⟨2026, 10, 12, 10, 0⟩ 60) := by
  decide

/-- C6 (amended): the handler reports already-scheduled and mutates no rule
whenever the existing expression differs from the placeholder and parses to a
time more than the one-minute grace window after now; it always reschedules to
`now + testDuration` when the expression equals the placeholder. -/
theorem decideSchedule_grace_idempotency
    (expr placeholder : String) (now : PyDateTime) (dur : Nat) :
    (∀ t, expr ≠ placeholder → parseCronExpression expr = some t →
        dtLt (addMinutes now 1) t = true →
        decideSchedule expr placeholder now dur = ScheduleDecision.alreadyScheduled) ∧
    (expr = placeholder →
        decideSchedule expr placeholder now dur =
          ScheduleDecision.scheduleAt (addMinutes now dur)) := by
  constructor
  · intro t hne hp hlt
    simp [decideSchedule, if_neg hne, hp, hlt]
  · intro heq
    simp only [decideSchedule, if_pos heq]
    rfl

/-- C6 witness: both branches of the amended theorem on concrete inputs. -/
theorem decideSchedule_grace_idempotency_witness :
    decideSchedule "cron(30 12 1 6 ? 2099)" "cron(0 0 1 1 ? 2099)"
        ⟨2026, 10, 12, 10, 0⟩ 60 = ScheduleDecision.alreadyScheduled ∧
    decideSchedule "cron(0 0 1 1 ? 2099)" "cron(0 0 1 1 ? 2099)"
        ⟨2026, 10, 12, 10, 0⟩ 60 =
      ScheduleDecision.scheduleAt (addMinutes ⟨2026, 10, 12, 10, 0⟩ 60) := by
  constructor
  · exact (decideSchedule_grace_idempotency _ _ _ _).1 ⟨2099, 6, 1, 12, 30⟩
      (by decide) (by decide) (by decide)
  · exact (decideSchedule_grace_idempotency _ _ _ _).2 rfl

/-- C10: with a configured log group, the export writes a non-empty artifact
even when the backend returns zero events: the `LogGroup:` header line is
buffered before pagination, so the zero-event run performs exactly one
whole-object upload containing that line and returns the artifact URI. -/
theorem exportLogs_zero_events_nonempty_artifact
    (env : LogS3Env) (lg bucket key : String) (pages : List LogPage)
    (hpages : ∀ p ∈ pages, ∃ tok, p = LogPage.ok [] tok)
    (hput : env.putObject (("LogGroup: " ++ lg ++ "\n").data) = Except.ok ()) :
    (exportLogsToS3 env (some lg) bucket key pages).1 =
      Except.ok (some ("s3://" ++ bucket ++ "/" ++ key)) ∧
    (exportLogsToS3 env (some lg) bucket key pages).2.trace =
      [S3Action.putObject (("LogGroup: " ++ lg ++ "\n").data)] ∧
    ("LogGroup: " ++ lg ++ "\n").data ≠ [] := by
  have h1 : runPages env LOG_EXPORT_PART_SIZE lg pages none (initLogSt lg) = initLogSt lg :=
    runPages_empty_events _ _ _ pages none _ hpages
  have hfin : exportLogsToS3 env (some lg) bucket key pages =
      (match env.putObject (initLogSt lg).buffer with
       | .ok _ => (Except.ok (some ("s3://" ++ bucket ++ "/" ++ key)),
           { initLogSt lg with
             trace := (initLogSt lg).trace ++ [S3Action.putObject (initLogSt lg).buffer] })
       | .error e => (Except.error e,
           { initLogSt lg with
             trace := (initLogSt lg).trace ++ [S3Action.putObject (initLogSt lg).buffer] })) :=
    exportLogsPS_no_upload LOG_EXPORT_PART_SIZE env lg bucket key pages (initLogSt lg) h1 rfl
  have hb : (initLogSt lg).buffer = ("LogGroup: " ++ lg ++ "\n").data := rfl
  rw [hb] at hfin
  rw [hput] at hfin
  refine ⟨?_, ?_, ?_⟩
  · rw [hfin]
  · rw [hfin]; rfl
  · simp [String.data_append]

/-! Helper lemmas for the cron dialect round-trip. -/

theorem natDigitsAux_zero (fuel : Nat) : natDigitsAux fuel 0 = [] := by
  cases fuel <;> rfl

theorem digit_render (r : Nat) (h : r < 10) :
    isDigitCh (Char.ofNat ('0'.toNat + r)) = true ∧
    digitVal (Char.ofNat ('0'.toNat + r)) = r := by
  revert h; revert r; decide

theorem digitsVal_concat (xs : Bytes) (c : Char) :
    digitsVal (xs ++ [c]) = 10 * digitsVal xs + digitVal c := by
  simp [digitsVal, List.foldl_append]

theorem natDigitsAux_spec :
    ∀ (fuel n : Nat), 0 < n → n ≤ fuel →
      natDigitsAux fuel n ≠ [] ∧ (∀ c ∈ natDigitsAux fuel n, isDigitCh c = true) ∧
      digitsVal (natDigitsAux fuel n) = n := by
  intro fuel
  induction fuel with
  | zero => intro n h1 h2; omega
  | succ fuel ih =>
    intro n h1 _h2
    obtain ⟨m, rfl⟩ : ∃ m, n = m + 1 := ⟨n - 1, by omega⟩
    have hrw : natDigitsAux (fuel + 1) (m + 1) =
        natDigitsAux fuel ((m + 1) / 10) ++ [Char.ofNat ('0'.toNat + (m + 1) % 10)] := rfl
    have hd := digit_render ((m + 1) % 10) (Nat.mod_lt _ (by norm_num))
    by_cases hq : (m + 1) / 10 = 0
    · rw [hrw, hq, natDigitsAux_zero]
      refine ⟨by simp, ?_, ?_⟩
      · intro c hc
        rw [List.nil_append, List.mem_singleton] at hc
        rw [hc]; exact hd.1
      · rw [List.nil_append]
        show digitsVal [_] = m + 1
        have : digitsVal [Char.ofNat ('0'.toNat + (m + 1) % 10)] =
            digitVal (Char.ofNat ('0'.toNat + (m + 1) % 10)) := by
          simp [digitsVal, digitVal]
        rw [this, hd.2]
        omega
    · have hlt : (m + 1) / 10 ≤ fuel := by
        have := Nat.div_lt_self (show 0 < m + 1 by omega) (show 1 < 10 by norm_num)
        omega
      obtain ⟨hne, hdig, hval⟩ := ih ((m + 1) / 10) (Nat.pos_of_ne_zero hq) hlt
      rw [hrw]
      refine ⟨by simp, ?_, ?_⟩
      · intro c hc
        rw [List.mem_append, List.mem_singleton] at hc
        rcases hc with hc | hc
        · exact hdig c hc
        · rw [hc]; exact hd.1
      · rw [digitsVal_concat, hval, hd.2]
        omega

theorem pyStrNat_spec (n : Nat) :
    pyStrNat n ≠ [] ∧ (∀ c ∈ pyStrNat n, isDigitCh c = true) ∧
    digitsVal (pyStrNat n) = n := by
  by_cases h : n = 0
  · subst h
    exact ⟨by decide, by decide, by decide⟩
  · rw [pyStrNat, if_neg h]
    exact natDigitsAux_spec n n (Nat.pos_of_ne_zero h) le_rfl

theorem digit_not_space (c : Char) (h : isDigitCh c = true) : pyIsSpace c = false := by
  by_contra hc
  rw [Bool.not_eq_false] at hc
  simp only [pyIsSpace, Bool.or_eq_true, beq_iff_eq] at hc
  rcases hc with ((((rfl | rfl) | rfl) | rfl) | rfl) | rfl <;> exact absurd h (by decide)

theorem digit_ne_plus (c : Char) (h : isDigitCh c = true) : c ≠ '+' := by
  intro hc; rw [hc] at h; exact absurd h (by decide)

theorem digit_ne_minus (c : Char) (h : isDigitCh c = true) : c ≠ '-' := by
  intro hc; rw [hc] at h; exact absurd h (by decide)

theorem dropWhile_space_of_digits (l : Bytes) (h : ∀ c ∈ l, isDigitCh c = true) :
    l.dropWhile pyIsSpace = l := by
  cases l with
  | nil => rfl
  | cons c cs =>
    rw [List.dropWhile_cons, digit_not_space c (h c (List.mem_cons_self _ _))]
    simp

theorem digitsUSGo_digits :
    ∀ (l : Bytes) (acc : Nat), (∀ ch ∈ l, isDigitCh ch = true) →
      digitsUSGo l acc = some (l.foldl (fun a ch => 10 * a + digitVal ch) acc) := by
  intro l
  induction l with
  | nil => intro acc _; rfl
  | cons c rest ih =>
    intro acc h
    have hc : isDigitCh c = true := h c (List.mem_cons_self _ _)
    rw [digitsUSGo.eq_def]
    dsimp only []
    rw [if_pos hc, ih (10 * acc + digitVal c) (fun x hx => h x (List.mem_cons_of_mem _ hx))]
    rw [List.foldl_cons]

theorem pyInt_pyStrNat (n : Nat) : pyInt? (pyStrNat n) = some (Int.ofNat n) := by
  obtain ⟨hne, hdig, hval⟩ := pyStrNat_spec n
  have hstrip : ((pyStrNat n).dropWhile pyIsSpace).reverse.dropWhile pyIsSpace =
      (pyStrNat n).reverse := by
    rw [dropWhile_space_of_digits _ hdig]
    exact dropWhile_space_of_digits _ (fun c hc => hdig c (List.mem_reverse.mp hc))
  show (match ((((pyStrNat n).dropWhile pyIsSpace).reverse.dropWhile pyIsSpace).reverse : Bytes) with
        | [] => none
        | c :: ds =>
          if c = '+' then (digitsToNat? ds).map Int.ofNat
          else if c = '-' then (digitsToNat? ds).map (fun n => -(n : Int))
          else (digitsToNat? (c :: ds)).map Int.ofNat) = some (Int.ofNat n)
  rw [hstrip, List.reverse_reverse]
  cases hpn : pyStrNat n with
  | nil => exact absurd hpn hne
  | cons c ds =>
    have hc : isDigitCh c = true := by
      rw [hpn] at hdig; exact hdig c (List.mem_cons_self _ _)
    show (if c = '+' then (digitsToNat? ds).map Int.ofNat
          else if c = '-' then (digitsToNat? ds).map (fun n => -(n : Int))
          else (digitsToNat? (c :: ds)).map Int.ofNat) = some (Int.ofNat n)
    rw [if_neg (digit_ne_plus c hc), if_neg (digit_ne_minus c hc)]
    have hallds : ∀ x ∈ ds, isDigitCh x = true := by
      intro x hx; rw [hpn] at hdig; exact hdig x (List.mem_cons_of_mem _ hx)
    show (digitsToNat? (c :: ds)).map Int.ofNat = some (Int.ofNat n)
    rw [show digitsToNat? (c :: ds) =
        (if isDigitCh c then digitsUSGo ds (digitVal c) else none) from rfl]
    rw [if_pos hc, digitsUSGo_digits ds (digitVal c) hallds]
    have hfold : ds.foldl (fun a ch => 10 * a + digitVal ch) (digitVal c) =
        digitsVal (c :: ds) := by
      simp [digitsVal, List.foldl_cons]
    rw [hfold, ← hpn, hval]
    rfl

theorem splitWsGo_word (w : Bytes) (hw : ∀ c ∈ w, pyIsSpace c = false) :
    ∀ (l : Bytes) (cur : Bytes), splitWsGo (w ++ l) cur = splitWsGo l (w.reverse ++ cur) := by
  induction w with
  | nil => intro l cur; simp [splitWsGo]
  | cons c cs ih =>
    intro l cur
    have hns : pyIsSpace c = false := hw c (List.mem_cons_self _ _)
    have ihh : ∀ x ∈ cs, pyIsSpace x = false := fun x hx => hw x (List.mem_cons_of_mem _ hx)
    rw [List.cons_append, splitWsGo, hns]
    simp only [Bool.false_eq_true, if_false]
    rw [ih ihh l (c :: cur)]
    simp [List.append_assoc]

theorem splitWs_word_cons (w l : Bytes) (hw : w ≠ [])
    (hns : ∀ c ∈ w, pyIsSpace c = false) :
    splitWs (w ++ ' ' :: l) = w :: splitWs l := by
  rw [splitWs, splitWsGo_word w hns (' ' :: l) []]
  rw [splitWsGo]
  have : pyIsSpace ' ' = true := by decide
  rw [this]
  simp only [if_true]
  have hcur : (w.reverse ++ ([] : Bytes)).isEmpty = false := by
    simp [List.isEmpty_iff, hw]
  rw [hcur]
  simp [splitWs]

theorem splitWs_word_last (w : Bytes) (hw : w ≠ [])
    (hns : ∀ c ∈ w, pyIsSpace c = false) : splitWs w = [w] := by
  have h := splitWsGo_word w hns [] []
  rw [List.append_nil] at h
  rw [splitWs, h, splitWsGo]
  have : (w.reverse ++ ([] : Bytes)).isEmpty = false := by
    simp [List.isEmpty_iff, hw]
  rw [this]
  simp

/-- C7: the 6-field cron dialect round-trips: for every constructor-valid
minute-resolution timestamp `t`, parsing the expression the formatter
produces for `t` yields exactly `t`. -/
theorem cron_roundtrip (t : PyDateTime) (h : validDT t = true) :
    parseCronExpression (cronAt t) = some t := by
  obtain ⟨hMne, hMdig, _⟩ := pyStrNat_spec t.minute
  obtain ⟨hHne, hHdig, _⟩ := pyStrNat_spec t.hour
  obtain ⟨hDne, hDdig, _⟩ := pyStrNat_spec t.day
  obtain ⟨hOne, hOdig, _⟩ := pyStrNat_spec t.month
  obtain ⟨hYne, hYdig, _⟩ := pyStrNat_spec t.year
  have hMns := fun c hc => digit_not_space c (hMdig c hc)
  have hHns := fun c hc => digit_not_space c (hHdig c hc)
  have hDns := fun c hc => digit_not_space c (hDdig c hc)
  have hOns := fun c hc => digit_not_space c (hOdig c hc)
  have hYns := fun c hc => digit_not_space c (hYdig c hc)
  have hcs : (cronAt t).data =
      "cron(".data ++
        ((pyStrNat t.minute ++ [' '] ++ pyStrNat t.hour ++ [' '] ++ pyStrNat t.day ++
          [' '] ++ pyStrNat t.month ++ " ? ".data ++ pyStrNat t.year) ++ [')']) := by
    show ("cron(".data ++ pyStrNat t.minute ++ [' '] ++ pyStrNat t.hour ++ [' '] ++
      pyStrNat t.day ++ [' '] ++ pyStrNat t.month ++ " ? ".data ++ pyStrNat t.year ++ [')'])
        = _
    simp [List.append_assoc]
  have htake : (cronAt t).data.take 5 = "cron(".data := by
    rw [hcs]; exact List.take_left' rfl
  have hne : (cronAt t).data ≠ [] := by
    rw [hcs]; simp
  have hlast : (cronAt t).data.getLast? = some ')' := by
    rw [hcs, ← List.append_assoc]
    exact List.getLast?_concat _
  have hinner : ((cronAt t).data.drop 5).dropLast =
      pyStrNat t.minute ++ [' '] ++ pyStrNat t.hour ++ [' '] ++ pyStrNat t.day ++
        [' '] ++ pyStrNat t.month ++ " ? ".data ++ pyStrNat t.year := by
    rw [hcs, List.drop_left' (show ("cron(".data).length = 5 from rfl),
      List.dropLast_concat]
  have hsplit : splitWs (((cronAt t).data.drop 5).dropLast) =
      [pyStrNat t.minute, pyStrNat t.hour, pyStrNat t.day, pyStrNat t.month, ['?'],
        pyStrNat t.year] := by
    rw [hinner]
    have hbody : pyStrNat t.minute ++ [' '] ++ pyStrNat t.hour ++ [' '] ++ pyStrNat t.day ++
        [' '] ++ pyStrNat t.month ++ " ? ".data ++ pyStrNat t.year =
        pyStrNat t.minute ++ ' ' :: (pyStrNat t.hour ++ ' ' :: (pyStrNat t.day ++
          ' ' :: (pyStrNat t.month ++ ' ' :: (['?'] ++ ' ' :: pyStrNat t.year)))) := by
      simp [List.append_assoc]
    rw [hbody]
    rw [splitWs_word_cons _ _ hMne hMns, splitWs_word_cons _ _ hHne hHns,
      splitWs_word_cons _ _ hDne hDns, splitWs_word_cons _ _ hOne hOns,
      splitWs_word_cons _ _ (by simp : (['?'] : Bytes) ≠ []) (by decide),
      splitWs_word_last _ hYne hYns]
  rw [parseCronExpression, if_pos ⟨htake, hne, hlast⟩]
  simp only [hsplit, if_true]
  rw [pyInt_pyStrNat, pyInt_pyStrNat, pyInt_pyStrNat, pyInt_pyStrNat, pyInt_pyStrNat]
  show mkDateTime? (Int.ofNat t.year) (Int.ofNat t.month) (Int.ofNat t.day)
      (Int.ofNat t.hour) (Int.ofNat t.minute) = some t
  have h' : validDateArgs (Int.ofNat t.year) (Int.ofNat t.month) (Int.ofNat t.day)
      (Int.ofNat t.hour) (Int.ofNat t.minute) = true := h
  rw [mkDateTime?, if_pos h']
  simp [Int.toNat_ofNat]

/-- C7 witness: the round-trip at a concrete valid timestamp. -/
theorem cron_roundtrip_witness :
    validDT ⟨2030, 6, 1, 12, 30⟩ = true ∧
    parseCronExpression (cronAt ⟨2030, 6, 1, 12, 30⟩) = some ⟨2030, 6, 1, 12, 30⟩ :=
  ⟨by decide, cron_roundtrip ⟨2030, 6, 1, 12, 30⟩ (by decide)⟩

/-- C8 counterexample: the claim's never-raises clause is false of the
program. `_parse_cron_expression` catches only `ValueError`, but CPython's
`datetime(...)` raises `OverflowError` for an argument outside the C `int`
range, so the well-formed, all-numeric expression
`cron(0 0 1 1 ? 9999999999)` — whose year is an out-of-range calendar
value — raises instead of returning `None`. -/
theorem parseCron_never_raises_counterexample :
    parseCronExpressionExc "cron(0 0 1 1 ? 9999999999)" =
      Except.error "OverflowError" ∧
    splitWs ((("cron(0 0 1 1 ? 9999999999)" : String).data.drop 5).dropLast) =
      [['0'], ['0'], ['1'], ['1'], ['?'],
        ['9', '9', '9', '9', '9', '9', '9', '9', '9', '9']] ∧
    pyInt? ['9', '9', '9', '9', '9', '9', '9', '9', '9', '9'] =
      some 9999999999 :=
  ⟨rfl, rfl, rfl⟩

/-- C8 (amended): `_parse_cron_expression` succeeds only on a
`cron(...)`-wrapped, exactly-6-field expression with day-of-week `?`, integer
fields and constructor-valid values; it returns `None` rather than raising on
a wrong field count, a non-`?` day-of-week, a field that fails integer
parsing, or an out-of-range calendar value whose fields fit in C `int` — but
a well-formed expression whose fields all parse as integers with one outside
the C `int` range raises an uncaught `OverflowError` (the code catches only
`ValueError`), and that is the only way it raises. -/
theorem parseCron_rejects_malformed (s : String) :
    (∀ t : PyDateTime, parseCronExpressionExc s = Except.ok (some t) →
      s.data.take 5 = "cron(".data ∧ s.data ≠ [] ∧ s.data.getLast? = some ')' ∧
      ∃ f0 f1 f2 f3 f5,
        splitWs ((s.data.drop 5).dropLast) = [f0, f1, f2, f3, ['?'], f5] ∧
        ∃ (mi hr d mo y : Int),
          pyInt? f0 = some mi ∧ pyInt? f1 = some hr ∧ pyInt? f2 = some d ∧
          pyInt? f3 = some mo ∧ pyInt? f5 = some y ∧
          validDateArgs y mo d hr mi = true ∧
          t = ⟨y.toNat, mo.toNat, d.toNat, hr.toNat, mi.toNat⟩) ∧
    (∀ e : String, parseCronExpressionExc s = Except.error e →
      e = "OverflowError" ∧
      ∃ f0 f1 f2 f3 f5,
        splitWs ((s.data.drop 5).dropLast) = [f0, f1, f2, f3, ['?'], f5] ∧
        ∃ (mi hr d mo y : Int),
          pyInt? f0 = some mi ∧ pyInt? f1 = some hr ∧ pyInt? f2 = some d ∧
          pyInt? f3 = some mo ∧ pyInt? f5 = some y ∧
          (inCInt y && inCInt mo && inCInt d && inCInt hr && inCInt mi) = false) := by
  constructor
  · intro t h
    unfold parseCronExpressionExc at h
    dsimp only [] at h
    split at h
    · rename_i hcond
      split at h
      · rename_i mi0 h0 d0 mo0 dow y0 heq
        split at h
        · rename_i hdow
          split at h
          · rename_i y mo d hh mi heqY heqMo heqD heqH heqMi
            rw [mkDateTimeExc] at h
            split at h
            · rename_i hrange
              split at h
              · rename_i hvalid
                injection h with h
                injection h with h
                subst hdow
                exact ⟨hcond.1, hcond.2.1, hcond.2.2, mi0, h0, d0, mo0, y0, heq,
                  mi, hh, d, mo, y, heqMi, heqH, heqD, heqMo, heqY, hvalid, h.symm⟩
              · exact absurd h (by simp)
            · exact absurd h (by simp)
          · exact absurd h (by simp)
        · exact absurd h (by simp)
      · exact absurd h (by simp)
    · exact absurd h (by simp)
  · intro e h
    unfold parseCronExpressionExc at h
    dsimp only [] at h
    split at h
    · rename_i hcond
      split at h
      · rename_i mi0 h0 d0 mo0 dow y0 heq
        split at h
        · rename_i hdow
          split at h
          · rename_i y mo d hh mi heqY heqMo heqD heqH heqMi
            rw [mkDateTimeExc] at h
            split at h
            · rename_i hrange
              split at h
              · exact absurd h (by simp)
              · exact absurd h (by simp)
            · rename_i hrange
              injection h with h
              subst hdow
              refine ⟨h.symm, mi0, h0, d0, mo0, y0, heq, mi, hh, d, mo, y,
                heqMi, heqH, heqD, heqMo, heqY, ?_⟩
              cases hbb : (inCInt y && inCInt mo && inCInt d && inCInt hh && inCInt mi) with
              | true => exact absurd hbb hrange
              | false => rfl
          · exact absurd h (by simp)
        · exact absurd h (by simp)
      · exact absurd h (by simp)
    · exact absurd h (by simp)

/-- C8 witness: the success classification applied to a concrete well-formed
expression, together with concrete `None` results (no raise) for each
non-raising malformed class: 5 fields, `*` day-of-week, a non-numeric field,
and month 13. -/
theorem parseCron_rejects_malformed_witness :
    ("cron(30 12 1 6 ? 2030)" : String).data.take 5 = "cron(".data ∧
    ("cron(30 12 1 6 ? 2030)" : String).data.getLast? = some ')' ∧
    parseCronExpressionExc "cron(30 12 1 6 2030)" = Except.ok none ∧
    parseCronExpressionExc "cron(30 12 1 6 * 2030)" = Except.ok none ∧
    parseCronExpressionExc "cron(30 12 1 six ? 2030)" = Except.ok none ∧
    parseCronExpressionExc "cron(30 12 1 13 ? 2030)" = Except.ok none := by
  have hA := (parseCron_rejects_malformed "cron(30 12 1 6 ? 2030)").1
    ⟨2030, 6, 1, 12, 30⟩ rfl
  exact ⟨hA.1, hA.2.2.1, rfl, rfl, rfl, rfl⟩

/-! Helper lemmas for the metric export claims. -/

theorem mem_insertLe {α : Type} (le : α → α → Bool) (a x : α) :
    ∀ l, x ∈ insertLe le a l ↔ x = a ∨ x ∈ l := by
  intro l
  induction l with
  | nil => simp [insertLe]
  | cons b rest ih =>
    by_cases h : le a b = true <;> simp [insertLe, h, ih] <;> tauto

theorem pairwise_insertLe {α : Type} (le : α → α → Bool)
    (htot : ∀ a b, le a b = true ∨ le b a = true)
    (htrans : ∀ a b c, le a b = true → le b c = true → le a c = true)
    (a : α) : ∀ l, List.Pairwise (fun x y => le x y = true) l →
      List.Pairwise (fun x y => le x y = true) (insertLe le a l) := by
  intro l
  induction l with
  | nil => intro _; simp [insertLe]
  | cons b rest ih =>
    intro hp
    rw [List.pairwise_cons] at hp
    obtain ⟨hb, hrest⟩ := hp
    rw [insertLe]
    by_cases hab : le a b = true
    · rw [if_pos hab, List.pairwise_cons]
      refine ⟨?_, List.Pairwise.cons hb hrest⟩
      intro x hx
      rcases List.mem_cons.mp hx with rfl | hx
      · exact hab
      · exact htrans a b x hab (hb x hx)
    · rw [if_neg hab, List.pairwise_cons]
      refine ⟨?_, ih hrest⟩
      intro x hx
      rcases (mem_insertLe le a x rest).mp hx with hxa | hx'
      · rw [hxa]
        rcases htot a b with h1 | h1
        · exact absurd h1 hab
        · exact h1
      · exact hb x hx'

theorem pairwise_sortLe {α : Type} (le : α → α → Bool)
    (htot : ∀ a b, le a b = true ∨ le b a = true)
    (htrans : ∀ a b c, le a b = true → le b c = true → le a c = true) :
    ∀ l, List.Pairwise (fun x y => le x y = true) (sortLe le l) := by
  intro l
  induction l with
  | nil => exact List.Pairwise.nil
  | cons a rest ih => exact pairwise_insertLe le htot htrans a _ ih

theorem sortDatapoints_pairwise (dps : List Datapoint) :
    List.Pairwise (fun a b => a.timestamp ≤ b.timestamp) (sortDatapoints dps) := by
  have h := pairwise_sortLe (fun a b : Datapoint => decide (a.timestamp ≤ b.timestamp))
    (fun a b => by
      rcases Nat.le_total a.timestamp b.timestamp with h | h
      · exact Or.inl (decide_eq_true h)
      · exact Or.inr (decide_eq_true h))
    (fun a b c hab hbc =>
      decide_eq_true (Nat.le_trans (of_decide_eq_true hab) (of_decide_eq_true hbc)))
    dps
  exact h.imp fun hxy => of_decide_eq_true hxy

theorem rowsOfDatapoint_ts (nsp nm dstr : String) (dp : Datapoint) (r : Row)
    (hr : r ∈ rowsOfDatapoint nsp nm dstr dp) : r.timestamp = dp.timestamp := by
  obtain ⟨st, _, heq⟩ := List.mem_filterMap.mp hr
  cases hsv : statValue dp st with
  | none => rw [hsv] at heq; exact absurd heq (by simp)
  | some v =>
    rw [hsv] at heq
    simp only [Option.map_some'] at heq
    injection heq with heq
    rw [← heq]

theorem pairwise_le_of_all_eq (v : Nat) :
    ∀ (l : List Nat), (∀ x ∈ l, x = v) → List.Pairwise (· ≤ ·) l := by
  intro l
  induction l with
  | nil => intro _; exact List.Pairwise.nil
  | cons x xs ih =>
    intro hall
    refine List.Pairwise.cons ?_ (ih fun y hy => hall y (List.mem_cons_of_mem _ hy))
    intro y hy
    rw [hall x (List.mem_cons_self _ _), hall y (List.mem_cons_of_mem _ hy)]

theorem pairwise_ts_flatMap (f : Datapoint → List Row)
    (hf : ∀ dp r, r ∈ f dp → r.timestamp = dp.timestamp) :
    ∀ dps, List.Pairwise (fun a b : Datapoint => a.timestamp ≤ b.timestamp) dps →
      List.Pairwise (· ≤ ·) ((dps.flatMap f).map Row.timestamp) := by
  intro dps
  induction dps with
  | nil => intro _; simp
  | cons dp rest ih =>
    intro hp
    rw [List.pairwise_cons] at hp
    rw [List.flatMap_cons, List.map_append, List.pairwise_append]
    refine ⟨?_, ih hp.2, ?_⟩
    · refine pairwise_le_of_all_eq dp.timestamp _ ?_
      intro x hx
      obtain ⟨r, hr, rfl⟩ := List.mem_map.mp hx
      exact hf dp r hr
    · intro x hx y hy
      obtain ⟨r, hr, rfl⟩ := List.mem_map.mp hx
      obtain ⟨r', hr', rfl⟩ := List.mem_map.mp hy
      obtain ⟨dp', hdp', hr'2⟩ := List.mem_flatMap.mp hr'
      rw [hf dp r hr, hf dp' r' hr'2]
      exact hp.1 dp' hdp'

theorem rowsOfDatapoint_stats (nsp nm dstr : String) (dp : Datapoint) :
    (rowsOfDatapoint nsp nm dstr dp).map Row.stat =
      STATISTICS.filter (fun st => (statValue dp st).isSome) := by
  rw [rowsOfDatapoint]
  generalize STATISTICS = l
  induction l with
  | nil => rfl
  | cons st rest ih =>
    rw [List.filterMap_cons, List.filter_cons]
    cases hsv : statValue dp st with
    | none => simpa [hsv] using ih
    | some v => simp [hsv, ih]

theorem subseg_flatMap (f : SeriesKey × List Dim → List Row)
    (l : List (SeriesKey × List Dim)) (a : SeriesKey × List Dim) (ha : a ∈ l) :
    isSubsegment (f a) (l.flatMap f) := by
  induction l with
  | nil => cases ha
  | cons b rest ih =>
    rw [List.flatMap_cons]
    rcases List.mem_cons.mp ha with hab | ha'
    · rw [hab]
      exact ⟨[], rest.flatMap f, by simp⟩
    · obtain ⟨s, t, hst⟩ := ih ha'
      exact ⟨f b ++ s, t, by simp [List.append_assoc, hst]⟩

/-- C3: transient backend failures after teardown has begun are contained to
their unit: a failing metric-listing call drops only that source from the
export; the export's outcome never depends on listing or statistics failures
(only the final upload can fail it); every discovered series still contributes
its rows as a contiguous block; and a failing log backend read still produces
a successful log-source export whose artifact records the error line. -/
theorem transient_failures_skip_unit :
    (∀ (env : MetricsEnv) (xs ys : List MetricSource) (s : MetricSource)
        (bucket key e : String),
        env.listMetricsBackend s.nsp s.dimensions = Except.error e →
        exportMetricSourcesToS3 env (xs ++ s :: ys) bucket key =
          exportMetricSourcesToS3 env (xs ++ ys) bucket key) ∧
    (∀ (env : MetricsEnv) (sources : List MetricSource) (bucket key : String),
        env.putObject = Except.ok () →
        (exportMetricSourcesToS3 env sources bucket key).result =
          Except.ok ("s3://" ++ bucket ++ "/" ++ key)) ∧
    (∀ (env : MetricsEnv) (sources : List MetricSource) (bucket key : String)
        (entry : SeriesKey × List Dim),
        entry ∈ metricMap env sources →
        isSubsegment (rowsForSeries env entry)
          (exportMetricSourcesToS3 env sources bucket key).rows) ∧
    (∀ (ps : Nat) (env : LogS3Env) (lg bucket key msg : String),
        env.putObject (("LogGroup: " ++ lg ++ "\n").data ++ errLine lg msg) =
          Except.ok () →
        (exportLogsToS3PS ps env (some lg) bucket key [LogPage.fail msg]).1 =
          Except.ok (some ("s3://" ++ bucket ++ "/" ++ key)) ∧
        (exportLogsToS3PS ps env (some lg) bucket key [LogPage.fail msg]).2.trace =
          [S3Action.putObject (("LogGroup: " ++ lg ++ "\n").data ++ errLine lg msg)]) := by
  refine ⟨?_, ?_, ?_, ?_⟩
  · intro env xs ys s bucket key e he
    have hmm : metricMap env (xs ++ s :: ys) = metricMap env (xs ++ ys) := by
      unfold metricMap
      rw [List.foldl_append, List.foldl_append, List.foldl_cons]
      congr 1
      simp [listMetricsCall, he, Except.map]
    simp [exportMetricSourcesToS3, hmm]
  · intro env sources bucket key hput
    simp [exportMetricSourcesToS3, hput]
  · intro env sources bucket key entry hmem
    exact subseg_flatMap (rowsForSeries env) _ entry hmem
  · intro ps env lg bucket key msg hput
    have hrun : runPages env ps lg [LogPage.fail msg] none (initLogSt lg) =
        ⟨("LogGroup: " ++ lg ++ "\n").data ++ errLine lg msg, none, [], 1, []⟩ := rfl
    have hfin := exportLogsPS_no_upload ps env lg bucket key [LogPage.fail msg]
      ⟨("LogGroup: " ++ lg ++ "\n").data ++ errLine lg msg, none, [], 1, []⟩ hrun rfl
    rw [hput] at hfin
    refine ⟨?_, ?_⟩ <;> (rw [hfin]; try rfl)

/-- C3 witness: the four conjuncts applied to concrete inputs — a failing
listing source dropped from a two-source export, a completed export, a
discovered series' block, and a failed log read still uploaded with the
diagnostic line. -/
theorem transient_failures_skip_unit_witness :
    exportMetricSourcesToS3 c3EnvW [c3SrcGood, c3SrcBad] "b" "k" =
      exportMetricSourcesToS3 c3EnvW [c3SrcGood] "b" "k" ∧
    (exportMetricSourcesToS3 c3EnvW [c3SrcGood] "b" "k").result =
      Except.ok ("s3://" ++ "b" ++ "/" ++ "k") ∧
    isSubsegment (rowsForSeries c3EnvW c3Entry)
      (exportMetricSourcesToS3 c3EnvW [c3SrcGood] "b" "k").rows ∧
    (exportLogsToS3PS 100 s3EnvPutOk (some "g") "b" "k" [LogPage.fail "crash"]).1 =
      Except.ok (some ("s3://" ++ "b" ++ "/" ++ "k")) := by
  obtain ⟨h1, h2, h3, h4⟩ := transient_failures_skip_unit
  refine ⟨h1 c3EnvW [c3SrcGood] [] c3SrcBad "b" "k" "boom" rfl, h2 c3EnvW [c3SrcGood] "b" "k" rfl, ?_, (h4 100 s3EnvPutOk "g" "b" "k" "crash" rfl).1⟩
  exact h3 c3EnvW [c3SrcGood] "b" "k" c3Entry (by rw [show metricMap c3EnvW [c3SrcGood] = [c3Entry] from rfl]; exact List.mem_singleton_self _)

/-! Helper lemmas for the chunked-upload claims. -/

theorem uploadedData_append (a b : List S3Action) :
    uploadedData (a ++ b) = uploadedData a ++ uploadedData b := by
  induction a with
  | nil => rfl
  | cons x rest ih => cases x <;> simp [uploadedData, ih]

theorem traceWf_init (lg : String) : traceWf (initLogSt lg) := by
  refine ⟨⟨rfl, rfl⟩, ?_, ?_, fun _ => rfl⟩
  · intro a ha; exact absurd ha (by simp [initLogSt])
  · simp [initLogSt]

theorem uploadPartStep_inv (env : LogS3Env) (uid : String)
    (hc : env.createMultipartUpload = Except.ok uid)
    (hu : ∀ n d, ∃ tag, env.uploadPart n d = Except.ok tag)
    (data : Bytes) (st : LogSt) (hwf : traceWf st) :
    ∃ st', uploadPartStep env data st = Except.ok st' ∧ traceWf st' ∧
      st'.buffer = st.buffer ∧
      uploadedData st'.trace = uploadedData st.trace ++ data ∧
      (∃ d, st'.trace = st.trace ++ d) ∧
      st'.uploadId.isSome = true := by
  obtain ⟨⟨hn1, hn2⟩, hacts, hiff, hempty⟩ := hwf
  obtain ⟨tag, htag⟩ := hu st.partNumber data
  cases hcase : st.uploadId with
  | some u =>
    refine ⟨{ st with
        parts := st.parts ++ [(tag, st.partNumber)],
        partNumber := st.partNumber + 1,
        trace := st.trace ++ [S3Action.uploadPart st.partNumber data] },
      ?_, ?_, rfl, ?_, ⟨_, rfl⟩, by simp [hcase]⟩
    · simp only [uploadPartStep, startMultipart, hcase, htag]
    · refine ⟨⟨?_, ?_⟩, ?_, ?_, ?_⟩
      · simp only [List.map_append, hn1, List.length_append, List.map_cons, List.map_nil,
          List.length_cons, List.length_nil]
        rw [List.range'_1_concat]
        simp [hn2, Nat.add_comm]
      · simp [hn2]
      · intro a ha
        rcases List.mem_append.mp ha with ha | ha
        · exact hacts a ha
        · rw [List.mem_singleton.mp ha]
          exact ⟨fun _ => by simp, by simp, fun _ => by simp⟩
      · constructor
        · intro _; exact List.mem_append_left _ (hiff.mp (by rw [hcase]; rfl))
        · intro _; simp [hcase]
      · intro hnone; simp [hcase] at hnone
    · rw [uploadedData_append]
      simp [uploadedData]
  | none =>
    refine ⟨{ st with
        uploadId := some uid,
        parts := st.parts ++ [(tag, st.partNumber)],
        partNumber := st.partNumber + 1,
        trace := (st.trace ++ [S3Action.createMultipartUpload]) ++
          [S3Action.uploadPart st.partNumber data] }, ?_, ?_, rfl, ?_, ⟨_, by rw [List.append_assoc]⟩, rfl⟩
    · simp only [uploadPartStep, startMultipart, hcase, hc, htag]
    · refine ⟨⟨?_, ?_⟩, ?_, ?_, ?_⟩
      · simp only [List.map_append, hn1, List.length_append, List.map_cons, List.map_nil,
          List.length_cons, List.length_nil]
        rw [List.range'_1_concat]
        simp [hn2, Nat.add_comm]
      · simp [hn2]
      · intro a ha
        rcases List.mem_append.mp ha with ha | ha
        · rcases List.mem_append.mp ha with ha | ha
          · exact hacts a ha
          · rw [List.mem_singleton.mp ha]
            exact ⟨fun _ => by simp, by simp, fun _ => by simp⟩
        · rw [List.mem_singleton.mp ha]
          exact ⟨fun _ => by simp, by simp, fun _ => by simp⟩
      · constructor
        · intro _
          exact List.mem_append_left _ (List.mem_append_right _ (List.mem_singleton_self _))
        · intro _; rfl
      · intro hnone; exact absurd hnone (by simp)
    · rw [uploadedData_append, uploadedData_append]
      simp [uploadedData]

theorem flushStep_inv (env : LogS3Env) (uid : String) (ps : Nat)
    (hc : env.createMultipartUpload = Except.ok uid)
    (hu : ∀ n d, ∃ tag, env.uploadPart n d = Except.ok tag)
    (force : Bool) (st : LogSt) (hwf : traceWf st) :
    ∃ st', flushStep env ps force st = Except.ok st' ∧ traceWf st' ∧
      uploadedData st'.trace ++ st'.buffer = uploadedData st.trace ++ st.buffer ∧
      (∃ d, st'.trace = st.trace ++ d) ∧
      (st.uploadId.isSome = true → st'.uploadId.isSome = true) ∧
      ((force = true ∨ ps ≤ utf8Len st.buffer) → st'.buffer = []) ∧
      (st.buffer ≠ [] → (force = true ∨ ps ≤ utf8Len st.buffer) →
        st'.uploadId.isSome = true) := by
  by_cases hb : st.buffer.isEmpty
  · refine ⟨st, by simp [flushStep, hb], hwf, rfl, ⟨[], by simp⟩, fun h => h, ?_, ?_⟩
    · intro _
      exact List.isEmpty_iff.mp hb
    · intro hne _
      exact absurd (List.isEmpty_iff.mp hb) hne
  · have hcontra : ∀ hf : force = true ∨ ps ≤ utf8Len st.buffer,
        (utf8Len st.buffer < ps && !force) = true → False := by
      intro hf h2
      rw [Bool.and_eq_true, Bool.not_eq_true'] at h2
      have hlt := of_decide_eq_true h2.1
      rcases hf with hf | hf
      · rw [hf] at h2; exact absurd h2.2 (by simp)
      · omega
    by_cases h2 : (utf8Len st.buffer < ps && !force) = true
    · refine ⟨st, by simp [flushStep, hb, h2], hwf, rfl, ⟨[], by simp⟩, fun h => h, ?_, ?_⟩
      · intro hf; exact absurd h2 (fun h => hcontra hf h)
      · intro _ hf; exact absurd h2 (fun h => hcontra hf h)
    · obtain ⟨st'', heq, hwf', hbuf, hdata, hext, hsome⟩ :=
        uploadPartStep_inv env uid hc hu st.buffer st hwf
      refine ⟨{ st'' with buffer := [] }, ?_, ?_, ?_, ?_, ?_, fun _ => rfl, fun _ _ => hsome⟩
      · simp only [flushStep, hb, h2, Bool.false_eq_true, if_false, heq]
      · obtain ⟨hn, hacts, hiff, hempty⟩ := hwf'
        refine ⟨hn, hacts, hiff, ?_⟩
        intro hnone
        rw [hnone] at hsome
        exact absurd hsome (by simp)
      · show uploadedData st''.trace ++ [] = _
        rw [List.append_nil, hdata]
      · exact hext
      · intro _; exact hsome

theorem processEvents_inv (env : LogS3Env) (uid : String) (ps : Nat)
    (hc : env.createMultipartUpload = Except.ok uid)
    (hu : ∀ n d, ∃ tag, env.uploadPart n d = Except.ok tag)
    (hps : 0 < ps) :
    ∀ (evs : List LogEvent) (st : LogSt), traceWf st →
      ∃ st', processEvents env ps evs st = Except.ok st' ∧ traceWf st' ∧
        uploadedData st'.trace ++ st'.buffer =
          uploadedData st.trace ++ st.buffer ++ evs.flatMap logLine ∧
        (∃ d, st'.trace = st.trace ++ d) ∧
        (evs ≠ [] → stOk ps st') ∧
        (evs = [] → st' = st) := by
  intro evs
  induction evs with
  | nil =>
    intro st hwf
    exact ⟨st, rfl, hwf, by simp, ⟨[], by simp⟩, fun h => absurd rfl h, fun _ => rfl⟩
  | cons e rest ih =>
    intro st hwf
    have hwfb : traceWf { st with buffer := st.buffer ++ logLine e } :=
      ⟨hwf.1, hwf.2.1, hwf.2.2.1, hwf.2.2.2⟩
    by_cases hth : ps ≤ utf8Len (st.buffer ++ logLine e)
    · obtain ⟨stf, heqf, hwff, hdataf, hextf, _, hbuff, hopen⟩ :=
        flushStep_inv env uid ps hc hu false { st with buffer := st.buffer ++ logLine e } hwfb
      have hbuf0 : stf.buffer = [] := hbuff (Or.inr hth)
      have hopen' : stf.uploadId.isSome = true :=
        hopen (by simp [logLine]) (Or.inr hth)
      obtain ⟨st', heq', hwf', hdata', hext', hne', hnil'⟩ := ih stf hwff
      refine ⟨st', ?_, hwf', ?_, ?_, ?_, fun h => absurd h (by simp)⟩
      · show processEvents env ps (e :: rest) st = Except.ok st'
        simp only [processEvents, processEvent, if_pos hth, heqf, heq']
      · rw [hdata', hdataf]
        simp [List.append_assoc]
      · obtain ⟨d1, hd1⟩ := hextf
        obtain ⟨d2, hd2⟩ := hext'
        exact ⟨d1 ++ d2, by rw [hd2, hd1]; simp [List.append_assoc]⟩
      · intro _
        rcases rest.eq_nil_or_concat with hrest | hrest
        · subst hrest
          rw [hnil' rfl]
          exact Or.inr hopen'
        · exact hne' (by obtain ⟨_, _, h⟩ := hrest; simp [h])
    · obtain ⟨st', heq', hwf', hdata', hext', hne', hnil'⟩ :=
        ih { st with buffer := st.buffer ++ logLine e } hwfb
      refine ⟨st', ?_, hwf', ?_, hext', ?_, fun h => absurd h (by simp)⟩
      · show processEvents env ps (e :: rest) st = Except.ok st'
        simp only [processEvents, processEvent, if_neg hth, heq']
      · rw [hdata']
        simp [List.append_assoc]
      · intro _
        rcases rest.eq_nil_or_concat with hrest | hrest
        · subst hrest
          rw [hnil' rfl]
          left
          show utf8Len (st.buffer ++ logLine e) < ps
          omega
        · exact hne' (by obtain ⟨_, _, h⟩ := hrest; simp [h])

theorem runPages_inv (env : LogS3Env) (uid : String) (ps : Nat) (lg : String)
    (hc : env.createMultipartUpload = Except.ok uid)
    (hu : ∀ n d, ∃ tag, env.uploadPart n d = Except.ok tag)
    (hps : 0 < ps) :
    ∀ (pages : List LogPage) (prev : Option String) (st : LogSt), traceWf st →
      (∀ p ∈ pages, ∃ evs tok, p = LogPage.ok evs tok) →
      ∃ st', runPages env ps lg pages prev st = st' ∧ traceWf st' ∧
        uploadedData st'.trace ++ st'.buffer =
          uploadedData st.trace ++ st.buffer ++ consumedText pages prev ∧
        (consumedText pages prev ≠ [] → stOk ps st') ∧
        (stOk ps st → stOk ps st') := by
  intro pages
  induction pages with
  | nil =>
    intro prev st hwf _
    exact ⟨st, rfl, hwf, by simp [consumedText], fun h => absurd rfl h, fun h => h⟩
  | cons page rest ih =>
    intro prev st hwf hpok
    obtain ⟨evs, tok, rfl⟩ := hpok page (List.mem_cons_self _ _)
    have hpok' : ∀ p ∈ rest, ∃ evs tok, p = LogPage.ok evs tok :=
      fun p hp => hpok p (List.mem_cons_of_mem _ hp)
    obtain ⟨stm, heqm, hwfm, hdatam, _, hnem, hnilm⟩ :=
      processEvents_inv env uid ps hc hu hps evs st hwf
    have hpres : stOk ps st → stOk ps stm := by
      intro h
      by_cases hevs : evs = []
      · rw [hnilm hevs]; exact h
      · exact hnem hevs
    cases tok with
    | none =>
      refine ⟨stm, ?_, hwfm, ?_, ?_, hpres⟩
      · simp only [runPages, heqm]
      · rw [hdatam]; simp [consumedText]
      · intro hne
        have hevs : evs ≠ [] := by
          intro h; subst h; simp [consumedText] at hne
        exact hnem hevs
    | some t =>
      by_cases hstop : t = "" ∨ some t = prev
      · refine ⟨stm, ?_, hwfm, ?_, ?_, hpres⟩
        · simp only [runPages, heqm, if_pos hstop]
        · rw [hdatam]; simp [consumedText, hstop]
        · intro hne
          have hevs : evs ≠ [] := by
            intro h; subst h; simp [consumedText, hstop] at hne
          exact hnem hevs
      · obtain ⟨st', heq', hwf', hdata', hne', hpres'⟩ := ih (some t) stm hwfm hpok'
        refine ⟨st', ?_, hwf', ?_, ?_, fun h => hpres' (hpres h)⟩
        · simp only [runPages, heqm, if_neg hstop, heq']
        · rw [hdata', hdatam]
          simp [consumedText, hstop, List.append_assoc]
        · intro hne
          by_cases hevs : evs = []
          · refine hne' ?_
            intro hrest
            apply hne
            subst hevs
            simp [consumedText, hstop, hrest]
          · exact hpres' (hnem hevs)

theorem processEvents_small (env : LogS3Env) (ps : Nat) :
    ∀ (evs : List LogEvent) (st : LogSt),
      utf8Len st.buffer + utf8Len (evs.flatMap logLine) < ps →
      processEvents env ps evs st =
        Except.ok { st with buffer := st.buffer ++ evs.flatMap logLine } := by
  intro evs
  induction evs with
  | nil =>
    intro st _
    show Except.ok st = _
    simp
  | cons e rest ih =>
    intro st hlt
    rw [List.flatMap_cons, utf8Len_append] at hlt
    have hth : ¬ ps ≤ utf8Len (st.buffer ++ logLine e) := by
      rw [utf8Len_append]; omega
    have hih := ih { st with buffer := st.buffer ++ logLine e }
      (by simp only []; rw [utf8Len_append]; omega)
    simp only [processEvents, processEvent, if_neg hth, hih]
    simp [List.flatMap_cons, List.append_assoc]

theorem runPages_small (env : LogS3Env) (ps : Nat) (lg : String) :
    ∀ (pages : List LogPage) (prev : Option String) (st : LogSt),
      (∀ p ∈ pages, ∃ evs tok, p = LogPage.ok evs tok) →
      utf8Len st.buffer + utf8Len (consumedText pages prev) < ps →
      runPages env ps lg pages prev st =
        { st with buffer := st.buffer ++ consumedText pages prev } := by
  intro pages
  induction pages with
  | nil =>
    intro prev st _ _
    show st = _
    simp [consumedText]
  | cons page rest ih =>
    intro prev st hpok hlt
    obtain ⟨evs, tok, rfl⟩ := hpok page (List.mem_cons_self _ _)
    have hpok' : ∀ p ∈ rest, ∃ evs tok, p = LogPage.ok evs tok :=
      fun p hp => hpok p (List.mem_cons_of_mem _ hp)
    cases tok with
    | none =>
      have hct : consumedText (LogPage.ok evs none :: rest) prev =
          evs.flatMap logLine ++ [] := rfl
      rw [hct, utf8Len_append] at hlt
      have hm := processEvents_small env ps evs st (by omega)
      simp only [runPages, hm]
      rw [hct]
      simp
    | some t =>
      by_cases hstop : t = "" ∨ some t = prev
      · have hct : consumedText (LogPage.ok evs (some t) :: rest) prev =
            evs.flatMap logLine ++ [] := by
          show evs.flatMap logLine ++
            (if t = "" ∨ some t = prev then [] else consumedText rest (some t)) = _
          rw [if_pos hstop]
        rw [hct, utf8Len_append] at hlt
        have hm := processEvents_small env ps evs st (by omega)
        simp only [runPages, hm, if_pos hstop]
        rw [hct]
        simp
      · have hct : consumedText (LogPage.ok evs (some t) :: rest) prev =
            evs.flatMap logLine ++ consumedText rest (some t) := by
          show evs.flatMap logLine ++
            (if t = "" ∨ some t = prev then [] else consumedText rest (some t)) = _
          rw [if_neg hstop]
        rw [hct, utf8Len_append] at hlt
        have hm := processEvents_small env ps evs st (by omega)
        have hih := ih (some t) { st with buffer := st.buffer ++ evs.flatMap logLine }
          hpok' (by
            show utf8Len (st.buffer ++ evs.flatMap logLine) + _ < ps
            rw [utf8Len_append]
            omega)
        simp only [runPages, hm, if_neg hstop, hih]
        rw [hct]
        simp [List.append_assoc]

/-- C4: with a configured source and a failure-free backend, if the total
formatted content (header plus event lines) stays below the part-size
threshold, exactly one whole-object upload is performed and no multipart call
is made; if event content is present and the total reaches the threshold, the
chunked path is used: no whole-object upload, the session is opened, every
buffered chunk is uploaded as a consecutively numbered part (the forced final
flush included, so the concatenation of the uploaded parts is exactly the
content), and the upload is completed last with all uploaded parts listed.
Proved for every part size, hence for `LOG_EXPORT_PART_SIZE`. -/
theorem exportLogs_chunking
    (ps : Nat) (env : LogS3Env) (lg bucket key : String) (pages : List LogPage)
    (uid : String)
    (hpok : ∀ p ∈ pages, ∃ evs tok, p = LogPage.ok evs tok)
    (hc : env.createMultipartUpload = Except.ok uid)
    (hu : ∀ n d, ∃ tag, env.uploadPart n d = Except.ok tag)
    (hcm : ∀ pl, env.completeMultipartUpload pl = Except.ok ())
    (hput : ∀ b, env.putObject b = Except.ok ()) :
    (utf8Len (("LogGroup: " ++ lg ++ "\n").data ++ consumedText pages none) < ps →
      (exportLogsToS3PS ps env (some lg) bucket key pages).1 =
        Except.ok (some ("s3://" ++ bucket ++ "/" ++ key)) ∧
      (exportLogsToS3PS ps env (some lg) bucket key pages).2.trace =
        [S3Action.putObject
          (("LogGroup: " ++ lg ++ "\n").data ++ consumedText pages none)]) ∧
    (0 < ps → consumedText pages none ≠ [] →
      ps ≤ utf8Len (("LogGroup: " ++ lg ++ "\n").data ++ consumedText pages none) →
      (exportLogsToS3PS ps env (some lg) bucket key pages).1 =
        Except.ok (some ("s3://" ++ bucket ++ "/" ++ key)) ∧
      (∀ b, S3Action.putObject b ∉
        (exportLogsToS3PS ps env (some lg) bucket key pages).2.trace) ∧
      S3Action.createMultipartUpload ∈
        (exportLogsToS3PS ps env (some lg) bucket key pages).2.trace ∧
      (∃ tr, (exportLogsToS3PS ps env (some lg) bucket key pages).2.trace =
        tr ++ [S3Action.completeMultipartUpload
          (exportLogsToS3PS ps env (some lg) bucket key pages).2.parts]) ∧
      (exportLogsToS3PS ps env (some lg) bucket key pages).2.parts.map Prod.snd =
        List.range' 1 (exportLogsToS3PS ps env (some lg) bucket key pages).2.parts.length ∧
      uploadedData (exportLogsToS3PS ps env (some lg) bucket key pages).2.trace =
        ("LogGroup: " ++ lg ++ "\n").data ++ consumedText pages none) := by
  constructor
  · intro hsmall
    rw [utf8Len_append] at hsmall
    have hrun := runPages_small env ps lg pages none (initLogSt lg) hpok hsmall
    have hfin := exportLogsPS_no_upload ps env lg bucket key pages
      { initLogSt lg with buffer := (initLogSt lg).buffer ++ consumedText pages none }
      hrun rfl
    rw [hput] at hfin
    exact ⟨by rw [hfin], by rw [hfin]; rfl⟩
  · intro hps hne hbig
    obtain ⟨st1, hrun, hwf1, hdata1, hstok, _⟩ :=
      runPages_inv env uid ps lg hc hu hps pages none (initLogSt lg) (traceWf_init lg) hpok
    have hstok1 : stOk ps st1 := hstok hne
    have hdata1' : uploadedData st1.trace ++ st1.buffer =
        ("LogGroup: " ++ lg ++ "\n").data ++ consumedText pages none := hdata1
    cases hu1 : st1.uploadId with
    | none =>
      exfalso
      have htr : st1.trace = [] := hwf1.2.2.2 hu1
      have hb1 : st1.buffer =
          ("LogGroup: " ++ lg ++ "\n").data ++ consumedText pages none := by
        rw [htr] at hdata1'
        simpa [uploadedData] using hdata1'
      rcases hstok1 with h | h
      · rw [hb1] at h; omega
      · rw [hu1] at h; exact absurd h (by simp)
    | some u =>
      obtain ⟨st2, hflush, hwf2, hdata2, _, hupId2, hbuf2, _⟩ :=
        flushStep_inv env uid ps hc hu true st1 hwf1
      have hbuf2' : st2.buffer = [] := hbuf2 (Or.inl rfl)
      have hsome2 : st2.uploadId.isSome = true := hupId2 (by rw [hu1]; rfl)
      have hdata2' : uploadedData st2.trace =
          ("LogGroup: " ++ lg ++ "\n").data ++ consumedText pages none := by
        rw [hbuf2', List.append_nil] at hdata2
        rw [hdata2, hdata1']
      have hfin := exportLogsPS_upload_branch ps env lg bucket key pages st1 hrun u hu1
      simp only [hflush, hcm] at hfin
      refine ⟨?_, ?_, ?_, ⟨st2.trace, ?_⟩, ?_, ?_⟩
      · rw [hfin]
      · intro b hb
        rw [hfin] at hb
        rcases List.mem_append.mp hb with hb | hb
        · exact (hwf2.2.1 _ hb).2.2 b rfl
        · rw [List.mem_singleton] at hb
          exact absurd hb (by simp)
      · rw [hfin]
        exact List.mem_append_left _ (hwf2.2.2.1.mp hsome2)
      · rw [hfin]
      · rw [hfin]
        exact hwf2.1.1
      · rw [hfin]
        show uploadedData (st2.trace ++ [S3Action.completeMultipartUpload st2.parts]) = _
        rw [uploadedData_append, hdata2']
        simp [uploadedData]

/-- C4 witness: on a concrete one-event run, part size 1000 keeps the content
below the threshold and yields the single whole-object upload, while part
size 4 forces the chunked path: the session is opened and the uploaded parts
carry exactly the content. -/
theorem exportLogs_chunking_witness :
    (exportLogsToS3PS 1000 c4EnvW (some "g") "b" "k" c2PageW).2.trace =
      [S3Action.putObject
        (("LogGroup: " ++ "g" ++ "\n").data ++ consumedText c2PageW none)] ∧
    S3Action.createMultipartUpload ∈
      (exportLogsToS3PS 4 c4EnvW (some "g") "b" "k" c2PageW).2.trace ∧
    uploadedData (exportLogsToS3PS 4 c4EnvW (some "g") "b" "k" c2PageW).2.trace =
      ("LogGroup: " ++ "g" ++ "\n").data ++ consumedText c2PageW none := by
  have hpok : ∀ p ∈ c2PageW, ∃ evs tok, p = LogPage.ok evs tok := by
    intro p hp
    rw [show c2PageW = [LogPage.ok [⟨"t".data, "s".data, "m".data⟩] none] from rfl,
      List.mem_singleton] at hp
    exact ⟨_, _, hp⟩
  have hsmall := (exportLogs_chunking 1000 c4EnvW "g" "b" "k" c2PageW "uid" hpok rfl
    (fun _ _ => ⟨"etag", rfl⟩) (fun _ => rfl) (fun _ => rfl)).1 (by decide)
  have hbig := (exportLogs_chunking 4 c4EnvW "g" "b" "k" c2PageW "uid" hpok rfl
    (fun _ _ => ⟨"etag", rfl⟩) (fun _ => rfl) (fun _ => rfl)).2
    (by decide) (by decide) (by decide)
  exact ⟨hsmall.2, hbig.2.2.1, hbig.2.2.2.2.2⟩

/-- C2: whenever the log export propagates an error while a multipart session
is open (a chunked upload has begun), the session was explicitly aborted
before the error propagated; dually, a successful export with an open session
always completed the upload with its recorded parts — no incomplete upload is
left behind on any exit path. -/
theorem multipart_abort_on_failure
    (ps : Nat) (env : LogS3Env) (logGroup : Option String) (bucket key : String)
    (pages : List LogPage) :
    (∀ e, (exportLogsToS3PS ps env logGroup bucket key pages).1 = Except.error e →
        (exportLogsToS3PS ps env logGroup bucket key pages).2.uploadId.isSome = true →
        S3Action.abortMultipartUpload ∈
          (exportLogsToS3PS ps env logGroup bucket key pages).2.trace) ∧
    (∀ v, (exportLogsToS3PS ps env logGroup bucket key pages).1 = Except.ok v →
        (exportLogsToS3PS ps env logGroup bucket key pages).2.uploadId.isSome = true →
        S3Action.completeMultipartUpload
            (exportLogsToS3PS ps env logGroup bucket key pages).2.parts ∈
          (exportLogsToS3PS ps env logGroup bucket key pages).2.trace) := by
  cases logGroup with
  | none =>
    constructor
    · intro e _ hup
      exact absurd hup (by simp [exportLogsToS3PS])
    · intro v _ hup
      exact absurd hup (by simp [exportLogsToS3PS])
  | some lg =>
    cases hu1 : (runPages env ps lg pages none (initLogSt lg)).uploadId with
    | none =>
      have hfin := exportLogsPS_no_upload ps env lg bucket key pages
        (runPages env ps lg pages none (initLogSt lg)) rfl hu1
      rw [hfin]
      cases hpo : env.putObject (runPages env ps lg pages none (initLogSt lg)).buffer <;>
        constructor <;> intro x hx hup <;> simp [hu1] at hup
    | some u =>
      have hfin := exportLogsPS_upload_branch ps env lg bucket key pages
        (runPages env ps lg pages none (initLogSt lg)) rfl u hu1
      rw [hfin]
      cases hf : flushStep env ps true (runPages env ps lg pages none (initLogSt lg)) with
      | error r =>
        obtain ⟨e0, st2⟩ := r
        cases hab : env.abortMultipartUpload <;>
          constructor <;> intro x hx hup <;> simp_all
      | ok st2 =>
        cases hcm : env.completeMultipartUpload st2.parts with
        | ok _ =>
          constructor <;> intro x hx hup <;> simp_all
        | error e =>
          cases hab : env.abortMultipartUpload <;>
            constructor <;> intro x hx hup <;> simp_all

/-- C2 witness: with a 4-byte part size (the theorem holds for every part
size, in particular `LOG_EXPORT_PART_SIZE`), a failing completion triggers the
abort, and a successful run completes the upload with its parts. -/
theorem multipart_abort_on_failure_witness :
    S3Action.abortMultipartUpload ∈
      (exportLogsToS3PS 4 c2EnvAbort (some "g") "b" "k" c2PageW).2.trace ∧
    S3Action.completeMultipartUpload
        (exportLogsToS3PS 4 c4EnvW (some "g") "b" "k" c2PageW).2.parts ∈
      (exportLogsToS3PS 4 c4EnvW (some "g") "b" "k" c2PageW).2.trace := by
  constructor
  · exact (multipart_abort_on_failure 4 c2EnvAbort (some "g") "b" "k" c2PageW).1
      "cfail" rfl rfl
  · exact (multipart_abort_on_failure 4 c4EnvW (some "g") "b" "k" c2PageW).2
      (some ("s3://" ++ "b" ++ "/" ++ "k")) rfl rfl

/-- C5: a series discoverable through two different dimension filters is
deduplicated into a single `metric_map` entry, so the export emits exactly one
traversal of its datapoints: per datapoint one row per statistic actually
present, with the datapoints sorted by timestamp. -/
theorem metric_export_dedup
    (env : MetricsEnv) (s1 s2 : MetricSource) (m1 m2 : CwMetric)
    (bucket key : String) (dps : List Datapoint)
    (hns : s2.nsp = s1.nsp)
    (hl1 : listMetricsCall env s1.nsp s1.dimensions s1.metricNames = .ok [m1])
    (hl2 : listMetricsCall env s2.nsp s2.dimensions s2.metricNames = .ok [m2])
    (hname : m2.metricName = m1.metricName)
    (hdims : sortDims m2.dimensions = sortDims m1.dimensions)
    (hstats : env.getMetricStatistics s1.nsp m1.metricName m2.dimensions = .ok dps) :
    metricMap env [s1, s2] =
      [((s1.nsp, m1.metricName, sortDims m1.dimensions), m2.dimensions)] ∧
    (exportMetricSourcesToS3 env [s1, s2] bucket key).rows =
      (sortDatapoints dps).flatMap
        (rowsOfDatapoint s1.nsp m1.metricName (dimensionsToStr m2.dimensions)) ∧
    (∀ dp : Datapoint,
        (rowsOfDatapoint s1.nsp m1.metricName (dimensionsToStr m2.dimensions) dp).map Row.stat =
          STATISTICS.filter (fun st => (statValue dp st).isSome)) ∧
    List.Pairwise (· ≤ ·)
      ((exportMetricSourcesToS3 env [s1, s2] bucket key).rows.map Row.timestamp) := by
  have hA : metricMap env [s1, s2] =
      [((s1.nsp, m1.metricName, sortDims m1.dimensions), m2.dimensions)] := by
    rw [hns] at hl2
    simp [metricMap, hl1, hl2, insertOrReplace, hns, hname, hdims]
  have hB : (exportMetricSourcesToS3 env [s1, s2] bucket key).rows =
      (sortDatapoints dps).flatMap
        (rowsOfDatapoint s1.nsp m1.metricName (dimensionsToStr m2.dimensions)) := by
    simp [exportMetricSourcesToS3, hA, rowsForSeries, hstats]
  refine ⟨hA, hB, fun dp => rowsOfDatapoint_stats _ _ _ dp, ?_⟩
  rw [hB]
  exact pairwise_ts_flatMap _ (rowsOfDatapoint_ts _ _ _) _ (sortDatapoints_pairwise dps)

/-- C5 witness: the deduplication theorem on a concrete environment where the
same series is reachable through a replication-group filter and a
member-cluster filter with permuted dimension lists. -/
theorem metric_export_dedup_witness :
    metricMap c5EnvW [c5Src1, c5Src2] =
      [(("AWS/ElastiCache", "CPUUtilization",
          sortDims [("CacheClusterId", "c1"), ("ReplicationGroupId", "rg")]),
        [("ReplicationGroupId", "rg"), ("CacheClusterId", "c1")])] ∧
    List.Pairwise (· ≤ ·)
      ((exportMetricSourcesToS3 c5EnvW [c5Src1, c5Src2] "b" "k").rows.map Row.timestamp) := by
  have h := metric_export_dedup c5EnvW c5Src1 c5Src2
    ⟨"CPUUtilization", [("CacheClusterId", "c1"), ("ReplicationGroupId", "rg")]⟩
    ⟨"CPUUtilization", [("ReplicationGroupId", "rg"), ("CacheClusterId", "c1")]⟩
    "b" "k"
    [⟨2, some "Percent", some 5, none, some 9, none⟩,
     ⟨1, some "Percent", some 4, none, none, some 1⟩]
    rfl rfl rfl rfl (by decide) rfl
  exact ⟨h.1, h.2.2.2⟩

/-- C10 witness: a concrete zero-event run producing only the header line. -/
theorem exportLogs_zero_events_nonempty_artifact_witness :
    (exportLogsToS3 s3EnvPutOk (some "grp") "b" "k" [LogPage.ok [] none]).1 =
      Except.ok (some ("s3://" ++ "b" ++ "/" ++ "k")) ∧
    ("LogGroup: " ++ "grp" ++ "\n").data ≠ [] := by
  have h := exportLogs_zero_events_nonempty_artifact s3EnvPutOk "grp" "b" "k"
    [LogPage.ok [] none]
    (by intro p hp; rw [List.mem_singleton] at hp; exact ⟨none, hp⟩) rfl
  exact ⟨h.1, h.2.2⟩

end Orchestrator
